import Mathlib

/-!
Verification development for the hexput language core (lexer, parser,
optimizer, built-in methods and tree-walking interpreter).

The Rust sources are embedded shallowly:

* lexer.rs (hexput-ast-api)      → `Hexput.Token`, `Hexput.tokenize`
* ast_structs.rs (hexput-ast-api) → `Hexput.Expression` / `Statement` / ...
* parser.rs (hexput-ast-api)     → `Hexput.ParserState`, `Hexput.parseProgram`, ...
* optimizer.rs (hexput-ast-api)  → `Hexput.optimizeStatement` / ...
* builtins.rs (hexput-runtime)   → `Hexput.executeBuiltinMethod` / ...
* handler.rs (hexput-runtime)    → `Hexput.evalExpr` / `Hexput.execStatement` / ...

Machine `f64` arithmetic is modelled by `Hexput.F64`: an exact rational
carrier (`Hexput.Frac`, kept gcd-normalized so that structural equality is
value equality) extended with the two infinities.  IEEE-754 rounding of
finite results is abstracted as exact rational arithmetic with overflow past
the largest finite double; the theorems below depend only on whether results
are finite and on exact small-integer arithmetic, both of which the model
shares with IEEE doubles.
-/

set_option exponentiation.threshold 2000
set_option maxRecDepth 20000

namespace Hexput

/-- Exact rational with `Int` numerator and positive `Nat` denominator, kept
gcd-normalized by construction so kernel computation and structural equality
behave like value equality. -/
structure Frac where
  n : Int
  d : Nat
deriving DecidableEq, Repr

namespace Frac

/-- Normalizing constructor. -/
def mk' (n : Int) (d : Nat) : Frac :=
  if d = 0 then ⟨0, 1⟩
  else
    let g := Nat.gcd n.natAbs d
    ⟨n / (g : Int), d / g⟩

def ofInt (n : Int) : Frac := ⟨n, 1⟩

def zero : Frac := ⟨0, 1⟩

def add (a b : Frac) : Frac := mk' (a.n * b.d + b.n * a.d) (a.d * b.d)

def neg (a : Frac) : Frac := ⟨-a.n, a.d⟩

def sub (a b : Frac) : Frac := add a (neg b)

def mul (a b : Frac) : Frac := mk' (a.n * b.n) (a.d * b.d)

/-- Exact division; the zero-divisor case is unreachable in the embedded code
(the runtime rejects zero divisors before dividing). -/
def div (a b : Frac) : Frac :=
  mk' (a.n * b.d * b.n.sign) (a.d * b.n.natAbs)

def abs (a : Frac) : Frac := ⟨a.n.natAbs, a.d⟩

def blt (a b : Frac) : Bool := a.n * b.d < b.n * a.d

def ble (a b : Frac) : Bool := a.n * b.d ≤ b.n * a.d

def isZero (a : Frac) : Bool := a.n == 0

def isNeg (a : Frac) : Bool := a.n < 0

def isInt (a : Frac) : Bool := a.d == 1

end Frac

/-- Largest finite `f64`, `(2 - 2⁻⁵²)·2¹⁰²³`, as an exact rational. -/
def f64Max : Frac := ⟨Int.ofNat (Nat.pow 2 1024 - Nat.pow 2 971), 1⟩

/-- Machine epsilon `f64::EPSILON = 2⁻⁵²`, used by the runtime for numeric
equality. -/
def f64Epsilon : Frac := ⟨1, Nat.pow 2 52⟩

/-- Model of a machine double: a finite rational or an infinity.  NaN is
omitted: no operation reachable in the embedded code can produce it (the
runtime rejects zero divisors before dividing, and `serde_json` numbers are
always finite, so infinite operands never occur). -/
inductive F64 where
  | finite (q : Frac)
  | inf
  | negInf
deriving DecidableEq, Repr

namespace F64

def isFinite : F64 → Bool
  | finite _ => true
  | _ => false

/-- Clamp an exact rational result to the double range: values beyond the
largest finite double overflow to the corresponding infinity. -/
def ofFrac (q : Frac) : F64 :=
  if f64Max.blt q then inf
  else if q.blt (Frac.neg f64Max) then negInf
  else finite q

/-- Machine addition of two finite doubles (rounding abstracted as exact,
overflow modelled). -/
def addF (a b : Frac) : F64 := ofFrac (a.add b)

/-- Machine subtraction of two finite doubles. -/
def subF (a b : Frac) : F64 := ofFrac (a.sub b)

/-- Machine multiplication of two finite doubles. -/
def mulF (a b : Frac) : F64 := ofFrac (a.mul b)

/-- Machine division of two finite doubles, divisor nonzero. -/
def divF (a b : Frac) : F64 := ofFrac (a.div b)

end F64

/-- Model of `serde_json::Number`: an unsigned integer (`u64`), a negative
integer (`i64`) or a finite double.  `u64`/`i64` range limits only matter for
`as_u64`/`as_i64` conversions, which check them explicitly. -/
inductive JNumber where
  | ofU (u : Nat)
  | ofI (i : Int)
  | ofF (q : Frac)
deriving DecidableEq, Repr

namespace JNumber

/-- Embeds `Number::as_f64`: total on every variant (integer→double rounding
is abstracted as exact). -/
def asF64 : JNumber → Frac
  | ofU u => Frac.ofInt u
  | ofI i => Frac.ofInt i
  | ofF q => q

/-- Embeds `Number::as_u64`. -/
def asU64 : JNumber → Option Nat
  | ofU u => some u
  | ofI i => if 0 ≤ i ∧ i ≤ (Int.ofNat (Nat.pow 2 64) - 1) then some i.toNat else none
  | ofF _ => none

/-- Embeds `Number::as_i64`. -/
def asI64 : JNumber → Option Int
  | ofU u => if (u : Int) ≤ Int.ofNat (Nat.pow 2 63) - 1 then some (u : Int) else none
  | ofI i => some i
  | ofF _ => none

def isI64 (x : JNumber) : Bool := (asI64 x).isSome

def isU64 : JNumber → Bool
  | ofU _ => true
  | ofI i => decide (0 ≤ i)
  | ofF _ => false

/-- Embeds `Number::from_f64`: `some` exactly on finite doubles. -/
def fromF64 : F64 → Option JNumber
  | F64.finite q => some (ofF q)
  | _ => none

/-- Embeds `Number::from_f64(x).unwrap_or(Number::from(0))` — the runtime's
fallback used for every arithmetic result and number literal. -/
def fromF64OrZero (x : F64) : JNumber :=
  (fromF64 x).getD (ofU 0)

/-- Rust `Display` for numbers: decimal for the integer variants; the
shortest-roundtrip `f64` formatting (`ryu`) is abstracted: integral doubles
print as `<n>.0` exactly as in Rust, non-integral ones by an
unspecified-but-fixed rendering.  No claim below depends on the non-integral
rendering. -/
def toDisplay : JNumber → String
  | ofU u => toString u
  | ofI i => toString i
  | ofF q => if q.isInt then toString q.n ++ ".0" else toString q.n ++ "/" ++ toString q.d

end JNumber

/-- Embeds `serde_json::Value`.  Objects are insertion-ordered association
lists (`Map::insert` replaces the value of an existing key in place); whether
the Rust build uses `preserve_order` only affects enumeration order, on which
no claim below depends. -/
inductive Value where
  | null
  | bool (b : Bool)
  | num (jn : JNumber)
  | str (s : String)
  | arr (elems : List Value)
  | obj (entries : List (String × Value))

namespace Value

def isArray : Value → Bool
  | arr _ => true
  | _ => false

def isNull : Value → Bool
  | null => true
  | _ => false

end Value

/-- Key lookup in an object (`Map::get`). -/
def objGet (entries : List (String × Value)) (k : String) : Option Value :=
  match entries with
  | [] => none
  | (k', v) :: rest => if k' = k then some v else objGet rest k

/-- Key membership in an object (`Map::contains_key`). -/
def objContains (entries : List (String × Value)) (k : String) : Bool :=
  (objGet entries k).isSome

/-- Insertion into an object (`Map::insert`): replace in place if the key
exists, else append. -/
def objInsert (entries : List (String × Value)) (k : String) (v : Value) :
    List (String × Value) :=
  match entries with
  | [] => [(k, v)]
  | (k', v') :: rest =>
      if k' = k then (k', v) :: rest else (k', v') :: objInsert rest k v

end Hexput

/-! ## Lexer (lexer.rs)

The `logos`-generated tokenizer is embedded as a maximal-munch scanner over
the character list.  Byte spans coincide with character offsets on the ASCII
sources considered here (and `get_line_column` in ast_structs.rs itself
counts characters against the byte offset, so the two agree exactly where the
runtime uses them).

Deliberately faithful detail: the `Token` enum of lexer.rs has **no** token
for `-` and none for `!=`; an input character no rule matches becomes a
`logos` error token, which `tokenize` silently drops. -/

namespace Hexput

/-- Embeds the `Token` enum of lexer.rs.  There is no minus and no not-equal
variant in the source enum (the parser's `Token::Minus` / `Token::NotEqual`
match arms name variants that do not exist). -/
inductive Token where
  | vl
  | ifTok
  | elseTok
  | cb
  | res
  | loopTok
  | inTok
  | endTok
  | continueTok
  | keysOf
  | trueTok
  | falseTok
  | nullTok
  | identifier (s : String)
  | stringLiteral (s : String)
  | numberLiteral (v : F64)
  | bang
  | equal
  | equalEqual
  | plus
  | multiply
  | divide
  | andTok
  | orTok
  | greaterEqual
  | lessEqual
  | greater
  | less
  | openBrace
  | closeBrace
  | openParen
  | closeParen
  | comma
  | semicolon
  | openBracket
  | closeBracket
  | colon
  | dot
deriving DecidableEq, Repr

/-- A token together with its span (start inclusive, stop exclusive). -/
structure TokenWithSpan where
  token : Token
  start : Nat
  stop : Nat
deriving DecidableEq, Repr

/-- Characters skipped by the lexer: the `logos(skip r"[ \t\n\f]+")` class. -/
def isLexWhitespace (c : Char) : Bool :=
  c = ' ' || c = '\t' || c = '\n' || c = '\x0c'

/-- Identifier start per the regex `[a-zA-Z_]`. -/
def isIdentStart (c : Char) : Bool :=
  c.isAlpha || c = '_'

/-- Identifier continuation per the regex `[a-zA-Z0-9_]`. -/
def isIdentCont (c : Char) : Bool :=
  c.isAlpha || c.isDigit || c = '_'

/-- Keyword lookup: keyword tokens outrank the identifier regex for exact
matches (`logos` priorities). -/
def keywordToken : String → Option Token
  | "vl" => some Token.vl
  | "if" => some Token.ifTok
  | "else" => some Token.elseTok
  | "cb" => some Token.cb
  | "res" => some Token.res
  | "loop" => some Token.loopTok
  | "in" => some Token.inTok
  | "end" => some Token.endTok
  | "continue" => some Token.continueTok
  | "keysof" => some Token.keysOf
  | "true" => some Token.trueTok
  | "false" => some Token.falseTok
  | "null" => some Token.nullTok
  | _ => none

/-- Escape processing of the `string_literal` callback in lexer.rs: the five
recognized escapes map to their characters, an unknown escape is passed
through as backslash+char. -/
def processEscapes : List Char → List Char
  | [] => []
  | '\\' :: c :: rest =>
      (match c with
       | 'n' => ['\n']
       | 't' => ['\t']
       | 'r' => ['\r']
       | '\\' => ['\\']
       | '"' => ['"']
       | _ => ['\\', c]) ++ processEscapes rest
  | '\\' :: [] => []
  | c :: rest => c :: processEscapes rest

/-- Scan the body of a string literal (regex `"([^"\]|\\.)*"`), returning the
raw content characters and the number of input characters consumed including
both quotes, or `none` when the literal is unterminated. -/
def scanStringBody : List Char → Option (List Char × Nat)
  | [] => none
  | '"' :: _ => some ([], 2)
  | '\\' :: c :: rest =>
      match scanStringBody rest with
      | some (content, k) => some ('\\' :: c :: content, k + 2)
      | none => none
  | '\\' :: [] => none
  | c :: rest =>
      match scanStringBody rest with
      | some (content, k) => some (c :: content, k + 1)
      | none => none

/-- Digit run to a natural number (decimal). -/
def digitsToNat (ds : List Char) : Nat :=
  ds.foldl (fun acc c => acc * 10 + (c.toNat - '0'.toNat)) 0

/-- Numeric literal to a machine double: exact decimal value, clamped to the
double range (matching `str::parse::<f64>`, whose rounding is abstracted). -/
def numberValue (neg : Bool) (intPart fracPart : List Char) : F64 :=
  let k := fracPart.length
  let mag : Int := Int.ofNat (digitsToNat intPart * Nat.pow 10 k + digitsToNat fracPart)
  F64.ofFrac (Frac.mk' (if neg then -mag else mag) (Nat.pow 10 k))

/-- One maximal-munch step of the scanner at `pos`: the next token and the
number of characters consumed, or `none` for an unrecognized character
(a `logos` error: one character is consumed and dropped). -/
def lexStep (cs : List Char) : Option Token × Nat :=
  match cs with
  | [] => (none, 0)
  | '/' :: '/' :: rest =>
      -- comment `//[^\n]*`: skipped like whitespace
      (none, 2 + (rest.takeWhile (fun c => c ≠ '\n')).length)
  | '=' :: '=' :: _ => (some Token.equalEqual, 2)
  | '&' :: '&' :: _ => (some Token.andTok, 2)
  | '|' :: '|' :: _ => (some Token.orTok, 2)
  | '>' :: '=' :: _ => (some Token.greaterEqual, 2)
  | '<' :: '=' :: _ => (some Token.lessEqual, 2)
  | '"' :: rest =>
      match scanStringBody rest with
      | some (content, k) =>
          (some (Token.stringLiteral (String.mk (processEscapes content))), k)
      | none => (none, 1)
  | '-' :: rest =>
      -- the number regex `-?[0-9]+(\.[0-9]+)?` is the only rule that can
      -- match a minus, and only when digits follow directly
      (match rest with
       | c :: _ =>
          if c.isDigit then
            let intPart := rest.takeWhile Char.isDigit
            let after := rest.drop intPart.length
            match after with
            | '.' :: d :: _ =>
                if d.isDigit then
                  let fracPart := (after.drop 1).takeWhile Char.isDigit
                  (some (Token.numberLiteral (numberValue true intPart fracPart)),
                   1 + intPart.length + 1 + fracPart.length)
                else
                  (some (Token.numberLiteral (numberValue true intPart [])),
                   1 + intPart.length)
            | _ =>
                (some (Token.numberLiteral (numberValue true intPart [])),
                 1 + intPart.length)
          else (none, 1)
       | [] => (none, 1))
  | c :: rest =>
      if isLexWhitespace c then (none, 1)
      else if c.isDigit then
        let intPart := (c :: rest).takeWhile Char.isDigit
        let after := (c :: rest).drop intPart.length
        match after with
        | '.' :: d :: _ =>
            if d.isDigit then
              let fracPart := (after.drop 1).takeWhile Char.isDigit
              (some (Token.numberLiteral (numberValue false intPart fracPart)),
               intPart.length + 1 + fracPart.length)
            else
              (some (Token.numberLiteral (numberValue false intPart [])), intPart.length)
        | _ => (some (Token.numberLiteral (numberValue false intPart [])), intPart.length)
      else if isIdentStart c then
        let ident := (c :: rest).takeWhile isIdentCont
        let s := String.mk ident
        match keywordToken s with
        | some t => (some t, ident.length)
        | none => (some (Token.identifier s), ident.length)
      else
        match c with
        | '!' => (some Token.bang, 1)
        | '=' => (some Token.equal, 1)
        | '+' => (some Token.plus, 1)
        | '*' => (some Token.multiply, 1)
        | '/' => (some Token.divide, 1)
        | '>' => (some Token.greater, 1)
        | '<' => (some Token.less, 1)
        | '{' => (some Token.openBrace, 1)
        | '}' => (some Token.closeBrace, 1)
        | '(' => (some Token.openParen, 1)
        | ')' => (some Token.closeParen, 1)
        | ',' => (some Token.comma, 1)
        | ';' => (some Token.semicolon, 1)
        | '[' => (some Token.openBracket, 1)
        | ']' => (some Token.closeBracket, 1)
        | ':' => (some Token.colon, 1)
        | '.' => (some Token.dot, 1)
        | _ => (none, 1)

/-- Fuel-driven scanner loop; the fuel is initialized to the input length
plus one, and every step consumes at least one character, so it never runs
out. -/
def lexLoop : Nat → List Char → Nat → List TokenWithSpan
  | 0, _, _ => []
  | _ + 1, [], _ => []
  | fuel + 1, cs, pos =>
      let (tok?, k) := lexStep cs
      let k := max k 1
      let rest := cs.drop k
      match tok? with
      | some t => { token := t, start := pos, stop := pos + k } :: lexLoop fuel rest (pos + k)
      | none => lexLoop fuel rest (pos + k)

/-- Embeds `tokenize` of lexer.rs: error tokens are dropped. -/
def tokenize (source : String) : List TokenWithSpan :=
  lexLoop (source.data.length + 1) source.data 0

end Hexput

/-! ## AST (ast_structs.rs)

The constant `node_type` tag strings (`"PROGRAM"`, `"BLOCK"`, `"PROPERTY"`)
only matter for JSON serialization, which no claim touches; they are left
out of the Lean structures. -/

namespace Hexput

/-- Embeds `SourceLocation` of ast_structs.rs: 1-based line/column span. -/
structure SourceLocation where
  start_line : Nat
  start_column : Nat
  end_line : Nat
  end_column : Nat
deriving DecidableEq, Repr

/-- Loop of `get_line_column` of ast_structs.rs. -/
def getLineColumnGo (offset : Nat) : List Char → Nat → Nat → Nat → Nat × Nat
  | [], _, line, column => (line, column)
  | ch :: rest, i, line, column =>
      if i ≥ offset then (line, column)
      else if ch = '\n' then getLineColumnGo offset rest (i + 1) (line + 1) 1
      else getLineColumnGo offset rest (i + 1) line (column + 1)

/-- Embeds `get_line_column` of ast_structs.rs: count newlines over the
characters strictly before `offset`. -/
def getLineColumn (source : String) (offset : Nat) : Nat × Nat :=
  getLineColumnGo offset source.data 0 1 1

/-- Embeds `SourceLocation::from_spans`. -/
def SourceLocation.fromSpans (source : String) (startOffset endOffset : Nat) :
    SourceLocation :=
  let s := getLineColumn source startOffset
  let e := getLineColumn source endOffset
  ⟨s.1, s.2, e.1, e.2⟩

/-- Embeds the `Operator` enum. -/
inductive Operator where
  | equal
  | notEqual
  | plus
  | minus
  | multiply
  | divide
  | greater
  | less
  | greaterEqual
  | lessEqual
  | and
  | or
deriving DecidableEq, Repr

/-- Embeds the `UnaryOperator` enum. -/
inductive UnaryOperator where
  | not
deriving DecidableEq, Repr

mutual

/-- Embeds the `Expression` enum of ast_structs.rs. -/
inductive Expression where
  | stringLiteral (value : String) (location : SourceLocation)
  | numberLiteral (value : F64) (location : SourceLocation)
  | identifier (name : String) (location : SourceLocation)
  | binaryExpression (left : Expression) (operator : Operator)
      (right : Expression) (location : SourceLocation)
  | assignmentExpression (target : String) (value : Expression)
      (location : SourceLocation)
  | memberAssignmentExpression (object : Expression) (property : Option String)
      (property_expr : Option Expression) (computed : Bool) (value : Expression)
      (location : SourceLocation)
  | callExpression (callee : String) (arguments : List Expression)
      (location : SourceLocation)
  | memberCallExpression (object : Expression) (property : Option String)
      (property_expr : Option Expression) (computed : Bool)
      (arguments : List Expression) (location : SourceLocation)
  | inlineCallbackExpression (name : String) (params : List String) (body : Block)
      (location : SourceLocation)
  | arrayExpression (elements : List Expression) (location : SourceLocation)
  | objectExpression (properties : List Property) (location : SourceLocation)
  | memberExpression (object : Expression) (property : Option String)
      (property_expr : Option Expression) (computed : Bool)
      (location : SourceLocation)
  | keysOfExpression (object : Expression) (location : SourceLocation)
  | booleanLiteral (value : Bool) (location : SourceLocation)
  | unaryExpression (operator : UnaryOperator) (operand : Expression)
      (location : SourceLocation)
  | nullLiteral (location : SourceLocation)

/-- Embeds the `Statement` enum of ast_structs.rs. -/
inductive Statement where
  | variableDeclaration (name : String) (value : Expression)
      (location : SourceLocation)
  | expressionStatement (expression : Expression) (location : SourceLocation)
  | ifStatement (condition : Expression) (body : Block)
      (else_body : Option Block) (location : SourceLocation)
  | block (blk : Block) (location : SourceLocation)
  | callbackDeclaration (name : String) (params : List String) (body : Block)
      (location : SourceLocation)
  | returnStatement (value : Expression) (location : SourceLocation)
  | loopStatement (loopVar : String) (iterable : Expression) (body : Block)
      (location : SourceLocation)
  | endStatement (location : SourceLocation)
  | continueStatement (location : SourceLocation)

/-- Embeds the `Block` struct. -/
inductive Block where
  | mk (statements : List Statement) (location : SourceLocation)

/-- Embeds the `Property` struct of object literals. -/
inductive Property where
  | mk (key : String) (value : Expression) (location : SourceLocation)

end

/-- Embeds the `Program` struct. -/
structure Program where
  statements : List Statement
  location : SourceLocation

def Block.statements : Block → List Statement
  | .mk s _ => s

def Block.location : Block → SourceLocation
  | .mk _ l => l

def Property.key : Property → String
  | .mk k _ _ => k

def Property.value : Property → Expression
  | .mk _ v _ => v

def Property.location : Property → SourceLocation
  | .mk _ _ l => l

/-- Embeds the `get_expr_location!` macro of parser.rs (every variant carries
its location). -/
def Expression.location : Expression → SourceLocation
  | .stringLiteral _ l => l
  | .numberLiteral _ l => l
  | .identifier _ l => l
  | .binaryExpression _ _ _ l => l
  | .assignmentExpression _ _ l => l
  | .memberAssignmentExpression _ _ _ _ _ l => l
  | .callExpression _ _ l => l
  | .memberCallExpression _ _ _ _ _ l => l
  | .inlineCallbackExpression _ _ _ l => l
  | .arrayExpression _ l => l
  | .objectExpression _ l => l
  | .memberExpression _ _ _ _ l => l
  | .keysOfExpression _ l => l
  | .booleanLiteral _ l => l
  | .unaryExpression _ _ l => l
  | .nullLiteral l => l

/-- Statement location, as matched in `execute_statement` of handler.rs. -/
def Statement.location : Statement → SourceLocation
  | .variableDeclaration _ _ l => l
  | .expressionStatement _ l => l
  | .ifStatement _ _ _ l => l
  | .block _ l => l
  | .callbackDeclaration _ _ _ l => l
  | .returnStatement _ l => l
  | .loopStatement _ _ _ l => l
  | .endStatement l => l
  | .continueStatement l => l

/-- Embeds `FeatureFlags` of feature_flags.rs. -/
structure FeatureFlags where
  allow_variable_declaration : Bool
  allow_conditionals : Bool
  allow_loops : Bool
  allow_callbacks : Bool
  allow_return_statements : Bool
  allow_loop_control : Bool
  allow_assignments : Bool
  allow_object_navigation : Bool
  allow_array_constructions : Bool
  allow_object_constructions : Bool
  allow_object_keys : Bool
deriving DecidableEq, Repr

/-- Embeds `FeatureFlags::default` / `all_enabled`. -/
def FeatureFlags.allEnabled : FeatureFlags :=
  ⟨true, true, true, true, true, true, true, true, true, true, true⟩

/-- Embeds `FeatureFlags::all_disabled`. -/
def FeatureFlags.allDisabled : FeatureFlags :=
  ⟨false, false, false, false, false, false, false, false, false, false, false⟩

/-- Embeds `FeatureFlags::expressions_only`. -/
def FeatureFlags.expressionsOnly : FeatureFlags :=
  { FeatureFlags.allDisabled with
      allow_assignments := true
      allow_object_navigation := true }

end Hexput

/-! ## Parser (parser.rs)

Recursive descent, embedded with a fuel parameter that strictly decreases on
every nested call (the Rust recursion is bounded by the token count, so any
fuel beyond the total number of parser-function invocations is enough; the
concrete theorems below use a generous constant).

Two arms of the Rust parser name `Token` variants that do not exist in the
lexer's enum — `Token::Minus` in `parse_additive` and `Token::NotEqual` in
`parse_equality` — so parser.rs does not compile against lexer.rs as given.
Those two arms are uninhabitable and are therefore absent here; every other
arm is translated verbatim. -/

namespace Hexput

/-- Embeds `ParseError` of parser.rs. -/
inductive ParseError where
  | unexpectedToken (msg : String) (location : SourceLocation)
  | expectedToken (what : String) (location : SourceLocation)
  | endOfInput (location : SourceLocation)
  | featureDisabled (feature : String) (location : SourceLocation)
deriving DecidableEq, Repr

/-- Rust `{:?}` (derive Debug) rendering of a token, used in error messages.
The float payload rendering is abstracted (no claim depends on it). -/
def Token.debugFmt : Token → String
  | .vl => "Vl"
  | .ifTok => "If"
  | .elseTok => "Else"
  | .cb => "Cb"
  | .res => "Res"
  | .loopTok => "Loop"
  | .inTok => "In"
  | .endTok => "End"
  | .continueTok => "Continue"
  | .keysOf => "KeysOf"
  | .trueTok => "True"
  | .falseTok => "False"
  | .nullTok => "Null"
  | .identifier s => "Identifier(\"" ++ s ++ "\")"
  | .stringLiteral s => "StringLiteral(\"" ++ s ++ "\")"
  | .numberLiteral _ => "NumberLiteral(_)"
  | .bang => "Bang"
  | .equal => "Equal"
  | .equalEqual => "EqualEqual"
  | .plus => "Plus"
  | .multiply => "Multiply"
  | .divide => "Divide"
  | .andTok => "And"
  | .orTok => "Or"
  | .greaterEqual => "GreaterEqual"
  | .lessEqual => "LessEqual"
  | .greater => "Greater"
  | .less => "Less"
  | .openBrace => "OpenBrace"
  | .closeBrace => "CloseBrace"
  | .openParen => "OpenParen"
  | .closeParen => "CloseParen"
  | .comma => "Comma"
  | .semicolon => "Semicolon"
  | .openBracket => "OpenBracket"
  | .closeBracket => "CloseBracket"
  | .colon => "Colon"
  | .dot => "Dot"

/-- Parser state: the `current_token` / remaining-iterator pair of the Rust
`Parser`, with token locations precomputed (the Rust parser derives them on
demand from the byte spans and the source text) and the feature flags. -/
structure ParserState where
  current : Option (Token × SourceLocation)
  rest : List (Token × SourceLocation)
  eofLoc : SourceLocation
  flags : FeatureFlags
deriving Repr

namespace ParserState

/-- Embeds `Parser::current_location`. -/
def currentLocation (st : ParserState) : SourceLocation :=
  match st.current with
  | some (_, l) => l
  | none => st.eofLoc

/-- Embeds `Parser::advance`. -/
def advance (st : ParserState) : ParserState :=
  { st with current := st.rest.head?, rest := st.rest.tail }

/-- Embeds `Parser::peek`. -/
def peek (st : ParserState) : Option (Token × SourceLocation) :=
  st.rest.head?

/-- Tag of the current token, for convenience in the match-heavy translation. -/
def currentToken (st : ParserState) : Option Token :=
  st.current.map (·.1)

end ParserState

/-- Embeds `Parser::expect`. -/
def expectTok (expected : Token) (st : ParserState) :
    Except ParseError ParserState :=
  let location := st.currentLocation
  match st.current with
  | some (t, _) =>
      if t = expected then Except.ok st.advance
      else Except.error (ParseError.unexpectedToken
        ("Expected " ++ expected.debugFmt ++ ", got " ++ t.debugFmt) location)
  | none => Except.error (ParseError.endOfInput location)

/-- Error used only when the parser's fuel runs out; unreachable for the fuel
bounds used in this development. -/
def fuelError : ParseError :=
  ParseError.unexpectedToken "parser fuel exhausted" ⟨0, 0, 0, 0⟩

/-- Span helper used throughout parser.rs: new location from a start and an
end location. -/
def spanLoc (s e : SourceLocation) : SourceLocation :=
  ⟨s.start_line, s.start_column, e.end_line, e.end_column⟩

mutual

/-- Embeds the statement loop of `Parser::parse_program`. -/
def parseProgramLoop (fuel : Nat) (acc : List Statement) (st : ParserState) :
    Except ParseError (List Statement × ParserState) :=
  match fuel with
  | 0 => Except.error fuelError
  | fuel + 1 =>
      match st.current with
      | none => Except.ok (acc.reverse, st)
      | some _ => do
          let (stmt, st) ← parseStmt fuel st
          parseProgramLoop fuel (stmt :: acc) st

/-- Embeds `Parser::parse_statement`. -/
def parseStmt (fuel : Nat) (st : ParserState) :
    Except ParseError (Statement × ParserState) :=
  match fuel with
  | 0 => Except.error fuelError
  | fuel + 1 =>
      let startLocation := st.currentLocation
      match st.current with
      | none => Except.error (ParseError.endOfInput startLocation)
      | some (tok, _) =>
          match tok with
          | Token.vl =>
              if st.flags.allow_variable_declaration then
                parseVariableDeclaration fuel startLocation st
              else
                Except.error (ParseError.featureDisabled "Variable declarations" startLocation)
          | Token.ifTok =>
              if st.flags.allow_conditionals then
                parseIfStatement fuel startLocation st
              else
                Except.error (ParseError.featureDisabled "Conditional statements" startLocation)
          | Token.loopTok =>
              if st.flags.allow_loops then
                parseLoopStatement fuel startLocation st
              else
                Except.error (ParseError.featureDisabled "Loop statements" startLocation)
          | Token.openBrace => parseBlockStatement fuel startLocation st
          | Token.cb =>
              if st.flags.allow_callbacks then
                parseCallbackDeclaration fuel startLocation st
              else
                Except.error (ParseError.featureDisabled "Callback declarations" startLocation)
          | Token.res =>
              if st.flags.allow_return_statements then
                parseReturnStatement fuel startLocation st
              else
                Except.error (ParseError.featureDisabled "Return statements" startLocation)
          | Token.endTok =>
              if st.flags.allow_loop_control then
                parseEndStatement fuel startLocation st
              else
                Except.error (ParseError.featureDisabled "Loop control statements (end)" startLocation)
          | Token.continueTok =>
              if st.flags.allow_loop_control then
                parseContinueStatement fuel startLocation st
              else
                Except.error (ParseError.featureDisabled "Loop control statements (continue)" startLocation)
          | _ => do
              let (expr, st) ← parseExpr fuel st
              let endLocation := st.currentLocation
              let st ← expectTok Token.semicolon st
              Except.ok (Statement.expressionStatement expr (spanLoc startLocation endLocation), st)

/-- Embeds `Parser::parse_variable_declaration`. -/
def parseVariableDeclaration (fuel : Nat) (startLocation : SourceLocation)
    (st : ParserState) : Except ParseError (Statement × ParserState) :=
  match fuel with
  | 0 => Except.error fuelError
  | fuel + 1 => do
      let st := st.advance
      let name ← match st.current with
        | some (Token.identifier name, _) => Except.ok name
        | some _ => Except.error (ParseError.expectedToken "identifier" st.currentLocation)
        | none => Except.error (ParseError.endOfInput st.currentLocation)
      let st := st.advance
      let st ← expectTok Token.equal st
      let (value, st) ← parseExpr fuel st
      let semicolonLocation := st.currentLocation
      let st ← expectTok Token.semicolon st
      Except.ok (Statement.variableDeclaration name value (spanLoc startLocation semicolonLocation), st)

/-- Embeds `Parser::parse_if_statement`. -/
def parseIfStatement (fuel : Nat) (startLocation : SourceLocation)
    (st : ParserState) : Except ParseError (Statement × ParserState) :=
  match fuel with
  | 0 => Except.error fuelError
  | fuel + 1 => do
      let st := st.advance
      let (condition, st) ← parseExpr fuel st
      let (body, st) ← parseBlockNode fuel st
      let (elseBody, st) ←
        match st.currentToken with
        | some Token.elseTok => do
            let st := st.advance
            let (b, st) ← parseBlockNode fuel st
            pure (some b, st)
        | _ => pure ((none : Option Block), st)
      let endLocation := match elseBody with
        | some b => b.location
        | none => body.location
      Except.ok (Statement.ifStatement condition body elseBody (spanLoc startLocation endLocation), st)

/-- Embeds `Parser::parse_block_statement`. -/
def parseBlockStatement (fuel : Nat) (startLocation : SourceLocation)
    (st : ParserState) : Except ParseError (Statement × ParserState) :=
  match fuel with
  | 0 => Except.error fuelError
  | fuel + 1 => do
      let (blk, st) ← parseBlockNode fuel st
      Except.ok (Statement.block blk (spanLoc startLocation blk.location), st)

/-- Embeds the statement loop of `Parser::parse_block`. -/
def parseBlockLoop (fuel : Nat) (acc : List Statement) (st : ParserState) :
    Except ParseError (List Statement × ParserState) :=
  match fuel with
  | 0 => Except.error fuelError
  | fuel + 1 =>
      match st.currentToken with
      | some Token.closeBrace => Except.ok (acc.reverse, st)
      | none => Except.ok (acc.reverse, st)
      | some _ => do
          let (stmt, st) ← parseStmt fuel st
          parseBlockLoop fuel (stmt :: acc) st

/-- Embeds `Parser::parse_block`. -/
def parseBlockNode (fuel : Nat) (st : ParserState) :
    Except ParseError (Block × ParserState) :=
  match fuel with
  | 0 => Except.error fuelError
  | fuel + 1 => do
      let startLocation := st.currentLocation
      let st ← expectTok Token.openBrace st
      let (statements, st) ← parseBlockLoop fuel [] st
      let endLocation := st.currentLocation
      let st ← expectTok Token.closeBrace st
      Except.ok (Block.mk statements (spanLoc startLocation endLocation), st)

/-- Embeds `Parser::parse_expression`. -/
def parseExpr (fuel : Nat) (st : ParserState) :
    Except ParseError (Expression × ParserState) :=
  match fuel with
  | 0 => Except.error fuelError
  | fuel + 1 => parseAssignment fuel st

/-- Embeds `Parser::parse_assignment`. -/
def parseAssignment (fuel : Nat) (st : ParserState) :
    Except ParseError (Expression × ParserState) :=
  match fuel with
  | 0 => Except.error fuelError
  | fuel + 1 => do
      let startLocation := st.currentLocation
      let (expr, st) ← parseLogicalOr fuel st
      match st.currentToken with
      | some Token.equal =>
          if !st.flags.allow_assignments then
            Except.error (ParseError.featureDisabled "Assignments" startLocation)
          else do
            let st := st.advance
            let (value, st) ← parseLogicalOr fuel st
            let endLocation := value.location
            let location := spanLoc startLocation endLocation
            match expr with
            | Expression.identifier name _ =>
                Except.ok (Expression.assignmentExpression name value location, st)
            | Expression.memberExpression object property property_expr computed _ =>
                if !st.flags.allow_object_navigation then
                  Except.error (ParseError.featureDisabled "Object property assignment" startLocation)
                else
                  Except.ok (Expression.memberAssignmentExpression object property
                    property_expr computed value location, st)
            | _ => Except.error (ParseError.unexpectedToken "Invalid assignment target" startLocation)
      | _ => Except.ok (expr, st)

/-- Embeds the operator loop of `Parser::parse_logical_or`. -/
def parseLogicalOrLoop (fuel : Nat) (startLocation : SourceLocation)
    (expr : Expression) (st : ParserState) :
    Except ParseError (Expression × ParserState) :=
  match fuel with
  | 0 => Except.error fuelError
  | fuel + 1 =>
      match st.currentToken with
      | some Token.orTok => do
          let st := st.advance
          let (right, st) ← parseLogicalAnd fuel st
          let location := spanLoc startLocation right.location
          parseLogicalOrLoop fuel startLocation
            (Expression.binaryExpression expr Operator.or right location) st
      | _ => Except.ok (expr, st)

/-- Embeds `Parser::parse_logical_or`. -/
def parseLogicalOr (fuel : Nat) (st : ParserState) :
    Except ParseError (Expression × ParserState) :=
  match fuel with
  | 0 => Except.error fuelError
  | fuel + 1 => do
      let startLocation := st.currentLocation
      let (expr, st) ← parseLogicalAnd fuel st
      parseLogicalOrLoop fuel startLocation expr st

/-- Embeds the operator loop of `Parser::parse_logical_and`. -/
def parseLogicalAndLoop (fuel : Nat) (startLocation : SourceLocation)
    (expr : Expression) (st : ParserState) :
    Except ParseError (Expression × ParserState) :=
  match fuel with
  | 0 => Except.error fuelError
  | fuel + 1 =>
      match st.currentToken with
      | some Token.andTok => do
          let st := st.advance
          let (right, st) ← parseEquality fuel st
          let location := spanLoc startLocation right.location
          parseLogicalAndLoop fuel startLocation
            (Expression.binaryExpression expr Operator.and right location) st
      | _ => Except.ok (expr, st)

/-- Embeds `Parser::parse_logical_and`. -/
def parseLogicalAnd (fuel : Nat) (st : ParserState) :
    Except ParseError (Expression × ParserState) :=
  match fuel with
  | 0 => Except.error fuelError
  | fuel + 1 => do
      let startLocation := st.currentLocation
      let (expr, st) ← parseEquality fuel st
      parseLogicalAndLoop fuel startLocation expr st

/-- Embeds the operator loop of `Parser::parse_equality`.  The source also has
a `Token::NotEqual` arm, but the lexer's `Token` enum has no such variant, so
the arm cannot exist (parser.rs does not compile as given); only the
`EqualEqual` arm is inhabitable. -/
def parseEqualityLoop (fuel : Nat) (startLocation : SourceLocation)
    (expr : Expression) (st : ParserState) :
    Except ParseError (Expression × ParserState) :=
  match fuel with
  | 0 => Except.error fuelError
  | fuel + 1 =>
      match st.currentToken with
      | some Token.equalEqual => do
          let st := st.advance
          let (right, st) ← parseComparison fuel st
          let location := spanLoc startLocation right.location
          parseEqualityLoop fuel startLocation
            (Expression.binaryExpression expr Operator.equal right location) st
      | _ => Except.ok (expr, st)

/-- Embeds `Parser::parse_equality`. -/
def parseEquality (fuel : Nat) (st : ParserState) :
    Except ParseError (Expression × ParserState) :=
  match fuel with
  | 0 => Except.error fuelError
  | fuel + 1 => do
      let startLocation := st.currentLocation
      let (expr, st) ← parseComparison fuel st
      parseEqualityLoop fuel startLocation expr st

/-- Embeds the operator loop of `Parser::parse_comparison`. -/
def parseComparisonLoop (fuel : Nat) (startLocation : SourceLocation)
    (expr : Expression) (st : ParserState) :
    Except ParseError (Expression × ParserState) :=
  match fuel with
  | 0 => Except.error fuelError
  | fuel + 1 =>
      match st.currentToken with
      | some Token.greater => do
          let st := st.advance
          let (right, st) ← parseAdditive fuel st
          let location := spanLoc startLocation right.location
          parseComparisonLoop fuel startLocation
            (Expression.binaryExpression expr Operator.greater right location) st
      | some Token.less => do
          let st := st.advance
          let (right, st) ← parseAdditive fuel st
          let location := spanLoc startLocation right.location
          parseComparisonLoop fuel startLocation
            (Expression.binaryExpression expr Operator.less right location) st
      | some Token.greaterEqual => do
          let st := st.advance
          let (right, st) ← parseAdditive fuel st
          let location := spanLoc startLocation right.location
          parseComparisonLoop fuel startLocation
            (Expression.binaryExpression expr Operator.greaterEqual right location) st
      | some Token.lessEqual => do
          let st := st.advance
          let (right, st) ← parseAdditive fuel st
          let location := spanLoc startLocation right.location
          parseComparisonLoop fuel startLocation
            (Expression.binaryExpression expr Operator.lessEqual right location) st
      | _ => Except.ok (expr, st)

/-- Embeds `Parser::parse_comparison`. -/
def parseComparison (fuel : Nat) (st : ParserState) :
    Except ParseError (Expression × ParserState) :=
  match fuel with
  | 0 => Except.error fuelError
  | fuel + 1 => do
      let startLocation := st.currentLocation
      let (expr, st) ← parseAdditive fuel st
      parseComparisonLoop fuel startLocation expr st

/-- Embeds the operator loop of `Parser::parse_additive`.  The source also has
a `Token::Minus` arm, but the lexer's `Token` enum has no minus variant, so
the arm cannot exist (parser.rs does not compile as given); only the `Plus`
arm is inhabitable. -/
def parseAdditiveLoop (fuel : Nat) (startLocation : SourceLocation)
    (expr : Expression) (st : ParserState) :
    Except ParseError (Expression × ParserState) :=
  match fuel with
  | 0 => Except.error fuelError
  | fuel + 1 =>
      match st.currentToken with
      | some Token.plus => do
          let st := st.advance
          let (right, st) ← parseMultiplicative fuel st
          let location := spanLoc startLocation right.location
          parseAdditiveLoop fuel startLocation
            (Expression.binaryExpression expr Operator.plus right location) st
      | _ => Except.ok (expr, st)

/-- Embeds `Parser::parse_additive`. -/
def parseAdditive (fuel : Nat) (st : ParserState) :
    Except ParseError (Expression × ParserState) :=
  match fuel with
  | 0 => Except.error fuelError
  | fuel + 1 => do
      let startLocation := st.currentLocation
      let (expr, st) ← parseMultiplicative fuel st
      parseAdditiveLoop fuel startLocation expr st

/-- Embeds the operator loop of `Parser::parse_multiplicative`. -/
def parseMultiplicativeLoop (fuel : Nat) (startLocation : SourceLocation)
    (expr : Expression) (st : ParserState) :
    Except ParseError (Expression × ParserState) :=
  match fuel with
  | 0 => Except.error fuelError
  | fuel + 1 =>
      match st.currentToken with
      | some Token.multiply => do
          let st := st.advance
          let (right, st) ← parsePrimary fuel st
          let (rightWithMember, st) ← parseMemberAccess fuel right st
          let location := spanLoc startLocation rightWithMember.location
          parseMultiplicativeLoop fuel startLocation
            (Expression.binaryExpression expr Operator.multiply rightWithMember location) st
      | some Token.divide => do
          let st := st.advance
          let (right, st) ← parsePrimary fuel st
          let (rightWithMember, st) ← parseMemberAccess fuel right st
          let location := spanLoc startLocation rightWithMember.location
          parseMultiplicativeLoop fuel startLocation
            (Expression.binaryExpression expr Operator.divide rightWithMember location) st
      | _ => Except.ok (expr, st)

/-- Embeds `Parser::parse_multiplicative`. -/
def parseMultiplicative (fuel : Nat) (st : ParserState) :
    Except ParseError (Expression × ParserState) :=
  match fuel with
  | 0 => Except.error fuelError
  | fuel + 1 => do
      let startLocation := st.currentLocation
      let (expr, st) ← parseUnary fuel st
      let (expr, st) ← parseMemberAccess fuel expr st
      parseMultiplicativeLoop fuel startLocation expr st

/-- Embeds `Parser::parse_unary`. -/
def parseUnary (fuel : Nat) (st : ParserState) :
    Except ParseError (Expression × ParserState) :=
  match fuel with
  | 0 => Except.error fuelError
  | fuel + 1 =>
      let startLocation := st.currentLocation
      match st.current with
      | some (Token.bang, _) => do
          let st := st.advance
          let (operand, st) ← parseUnary fuel st
          let location := spanLoc startLocation operand.location
          Except.ok (Expression.unaryExpression UnaryOperator.not operand location, st)
      | some _ => parsePrimary fuel st
      | none => Except.error (ParseError.endOfInput startLocation)

/-- Embeds `Parser::parse_primary`. -/
def parsePrimary (fuel : Nat) (st : ParserState) :
    Except ParseError (Expression × ParserState) :=
  match fuel with
  | 0 => Except.error fuelError
  | fuel + 1 =>
      let startLocation := st.currentLocation
      match st.current with
      | none => Except.error (ParseError.endOfInput startLocation)
      | some (tok, _) =>
          match tok with
          | Token.keysOf =>
              if st.flags.allow_object_keys then do
                let st := st.advance
                let (objectExpr, st) ← parsePrimary fuel st
                let (objectExpr, st) ← parseMemberAccess fuel objectExpr st
                let location := spanLoc startLocation objectExpr.location
                Except.ok (Expression.keysOfExpression objectExpr location, st)
              else
                Except.error (ParseError.featureDisabled "Object keys operator (keysof)" startLocation)
          | Token.openBracket =>
              if st.flags.allow_array_constructions then
                parseArrayLiteral fuel startLocation st
              else
                Except.error (ParseError.featureDisabled "Array literals" startLocation)
          | Token.openBrace =>
              match st.peek with
              | some (Token.identifier _, _) =>
                  if st.flags.allow_object_constructions then
                    parseObjectLiteral fuel startLocation st
                  else
                    Except.error (ParseError.featureDisabled "Object literals" startLocation)
              | some (Token.closeBrace, _) =>
                  let st := st.advance
                  let st := st.advance
                  if st.flags.allow_object_constructions then
                    Except.ok (Expression.objectExpression [] startLocation, st)
                  else
                    Except.error (ParseError.featureDisabled "Object literals" startLocation)
              | some _ =>
                  if st.flags.allow_object_constructions then
                    parseObjectLiteral fuel startLocation st
                  else
                    Except.error (ParseError.featureDisabled "Object literals" startLocation)
              | none => Except.error (ParseError.endOfInput startLocation)
          | Token.openParen => do
              let st := st.advance
              let (expr, st) ← parseExpr fuel st
              let st ← expectTok Token.closeParen st
              Except.ok (expr, st)
          | Token.identifier name =>
              let st := st.advance
              (match st.currentToken with
               | some Token.openParen => parseFunctionCall fuel name startLocation st
               | _ => Except.ok (Expression.identifier name startLocation, st))
          | Token.stringLiteral value =>
              Except.ok (Expression.stringLiteral value startLocation, st.advance)
          | Token.numberLiteral value =>
              Except.ok (Expression.numberLiteral value startLocation, st.advance)
          | Token.trueTok =>
              Except.ok (Expression.booleanLiteral true startLocation, st.advance)
          | Token.falseTok =>
              Except.ok (Expression.booleanLiteral false startLocation, st.advance)
          | Token.nullTok =>
              Except.ok (Expression.nullLiteral startLocation, st.advance)
          | _ =>
              Except.error (ParseError.unexpectedToken
                ("Unexpected token: " ++ tok.debugFmt) startLocation)

/-- Embeds the inner argument loop of `Parser::parse_function_call` that runs
after a leading inline callback (it has no inline-callback case of its own;
on exhausted input it falls through to the outer loop). -/
def parseFunctionCallAfterCbLoop (fuel : Nat) (callee : String)
    (startLocation : SourceLocation) (args : List Expression) (st : ParserState) :
    Except ParseError (Option Expression × List Expression × ParserState) :=
  match fuel with
  | 0 => Except.error fuelError
  | fuel + 1 =>
      match st.currentToken with
      | some Token.comma => do
          let st := st.advance
          let (arg, st) ← parseExpr fuel st
          parseFunctionCallAfterCbLoop fuel callee startLocation (args ++ [arg]) st
      | some Token.closeParen =>
          let endLocation := st.currentLocation
          let st := st.advance
          Except.ok (some (Expression.callExpression callee args
            (spanLoc startLocation endLocation)), args, st)
      | some _ =>
          Except.error (ParseError.expectedToken "',' or ')'" st.currentLocation)
      | none => Except.ok (none, args, st)

/-- Embeds the outer argument loop of `Parser::parse_function_call` (inline
callbacks are recognized after a comma here). -/
def parseFunctionCallLoop (fuel : Nat) (callee : String)
    (startLocation : SourceLocation) (args : List Expression) (st : ParserState) :
    Except ParseError (Expression × ParserState) :=
  match fuel with
  | 0 => Except.error fuelError
  | fuel + 1 =>
      match st.currentToken with
      | some Token.comma => do
          let st := st.advance
          match st.currentToken with
          | some Token.cb =>
              if !st.flags.allow_callbacks then
                Except.error (ParseError.featureDisabled "Inline callback expressions" st.currentLocation)
              else do
                let (icb, st) ← parseInlineCallback fuel st
                parseFunctionCallLoop fuel callee startLocation (args ++ [icb]) st
          | _ => do
              let (arg, st) ← parseExpr fuel st
              parseFunctionCallLoop fuel callee startLocation (args ++ [arg]) st
      | some Token.closeParen =>
          let endLocation := st.currentLocation
          let st := st.advance
          Except.ok (Expression.callExpression callee args
            (spanLoc startLocation endLocation), st)
      | some _ =>
          Except.error (ParseError.expectedToken "',' or ')'" st.currentLocation)
      | none => Except.error (ParseError.expectedToken "')'" st.currentLocation)

/-- Embeds `Parser::parse_function_call`. -/
def parseFunctionCall (fuel : Nat) (callee : String)
    (startLocation : SourceLocation) (st : ParserState) :
    Except ParseError (Expression × ParserState) :=
  match fuel with
  | 0 => Except.error fuelError
  | fuel + 1 => do
      let st ← expectTok Token.openParen st
      match st.currentToken with
      | some Token.closeParen =>
          let endLocation := st.currentLocation
          let st := st.advance
          Except.ok (Expression.callExpression callee []
            (spanLoc startLocation endLocation), st)
      | some Token.cb =>
          if !st.flags.allow_callbacks then
            Except.error (ParseError.featureDisabled "Inline callback expressions" st.currentLocation)
          else do
            let (icb, st) ← parseInlineCallback fuel st
            let (done, args, st) ← parseFunctionCallAfterCbLoop fuel callee startLocation [icb] st
            match done with
            | some call => Except.ok (call, st)
            | none => parseFunctionCallLoop fuel callee startLocation args st
      | _ => do
          let (arg, st) ← parseExpr fuel st
          parseFunctionCallLoop fuel callee startLocation [arg] st

/-- Embeds the parameter loop shared by `parse_inline_callback` and
`parse_callback_declaration` (their parameter parsing is identical). -/
def parseParamsLoop (fuel : Nat) (params : List String) (st : ParserState) :
    Except ParseError (List String × ParserState) :=
  match fuel with
  | 0 => Except.error fuelError
  | fuel + 1 =>
      match st.currentToken with
      | some Token.comma =>
          let st := st.advance
          (match st.current with
           | some (Token.identifier param, _) =>
               parseParamsLoop fuel (params ++ [param]) st.advance
           | some _ => Except.error (ParseError.expectedToken "parameter name" st.currentLocation)
           | none => Except.error (ParseError.endOfInput st.currentLocation))
      | some Token.closeParen => Except.ok (params, st.advance)
      | some _ => Except.error (ParseError.expectedToken "',' or ')'" st.currentLocation)
      | none => Except.ok (params, st)

/-- Embeds the parameter-list section shared by `parse_inline_callback` and
`parse_callback_declaration`: empty list on an immediate `)`, else first
parameter then the loop; exhausted input before the list is `EndOfInput`. -/
def parseParams (fuel : Nat) (st : ParserState) :
    Except ParseError (List String × ParserState) :=
  match fuel with
  | 0 => Except.error fuelError
  | fuel + 1 => do
      let st ← expectTok Token.openParen st
      match st.current with
      | some (Token.closeParen, _) => Except.ok ([], st.advance)
      | some (Token.identifier param, _) => parseParamsLoop fuel [param] st.advance
      | some _ => Except.error (ParseError.expectedToken "parameter name" st.currentLocation)
      | none => Except.error (ParseError.endOfInput st.currentLocation)

/-- Embeds `Parser::parse_inline_callback`. -/
def parseInlineCallback (fuel : Nat) (st : ParserState) :
    Except ParseError (Expression × ParserState) :=
  match fuel with
  | 0 => Except.error fuelError
  | fuel + 1 => do
      let startLocation := st.currentLocation
      let st := st.advance
      let name ← match st.current with
        | some (Token.identifier name, _) => Except.ok name
        | some _ => Except.error (ParseError.expectedToken "callback name" st.currentLocation)
        | none => Except.error (ParseError.endOfInput st.currentLocation)
      let st := st.advance
      let (params, st) ← parseParams fuel st
      let (body, st) ← parseBlockNode fuel st
      let endLocation := body.location
      Except.ok (Expression.inlineCallbackExpression name params body
        (spanLoc startLocation endLocation), st)

/-- Embeds `Parser::parse_callback_declaration`. -/
def parseCallbackDeclaration (fuel : Nat) (startLocation : SourceLocation)
    (st : ParserState) : Except ParseError (Statement × ParserState) :=
  match fuel with
  | 0 => Except.error fuelError
  | fuel + 1 => do
      let st := st.advance
      let name ← match st.current with
        | some (Token.identifier name, _) => Except.ok name
        | some _ => Except.error (ParseError.expectedToken "callback name" st.currentLocation)
        | none => Except.error (ParseError.endOfInput st.currentLocation)
      let st := st.advance
      let (params, st) ← parseParams fuel st
      let (body, st) ← parseBlockNode fuel st
      let endLocation := body.location
      Except.ok (Statement.callbackDeclaration name params body
        (spanLoc startLocation endLocation), st)

/-- Embeds `Parser::parse_return_statement`. -/
def parseReturnStatement (fuel : Nat) (startLocation : SourceLocation)
    (st : ParserState) : Except ParseError (Statement × ParserState) :=
  match fuel with
  | 0 => Except.error fuelError
  | fuel + 1 => do
      let st := st.advance
      let (value, st) ← parseExpr fuel st
      let semicolonLocation := st.currentLocation
      let st ← expectTok Token.semicolon st
      Except.ok (Statement.returnStatement value (spanLoc startLocation semicolonLocation), st)

/-- Embeds the element loop of `Parser::parse_array_literal`. -/
def parseArrayLiteralLoop (fuel : Nat) (startLocation : SourceLocation)
    (elements : List Expression) (st : ParserState) :
    Except ParseError (Expression × ParserState) :=
  match fuel with
  | 0 => Except.error fuelError
  | fuel + 1 =>
      match st.currentToken with
      | some Token.comma => do
          let st := st.advance
          let (e, st) ← parseExpr fuel st
          parseArrayLiteralLoop fuel startLocation (elements ++ [e]) st
      | some Token.closeBracket =>
          let endLocation := st.currentLocation
          let st := st.advance
          Except.ok (Expression.arrayExpression elements
            (spanLoc startLocation endLocation), st)
      | some _ =>
          Except.error (ParseError.expectedToken "',' or ']'" st.currentLocation)
      | none => Except.error (ParseError.expectedToken "']'" st.currentLocation)

/-- Embeds `Parser::parse_array_literal`. -/
def parseArrayLiteral (fuel : Nat) (startLocation : SourceLocation)
    (st : ParserState) : Except ParseError (Expression × ParserState) :=
  match fuel with
  | 0 => Except.error fuelError
  | fuel + 1 => do
      let st := st.advance
      match st.currentToken with
      | some Token.closeBracket =>
          let endLocation := st.currentLocation
          let st := st.advance
          Except.ok (Expression.arrayExpression []
            (spanLoc startLocation endLocation), st)
      | _ => do
          let (e, st) ← parseExpr fuel st
          parseArrayLiteralLoop fuel startLocation [e] st

/-- Embeds the property loop of `Parser::parse_object_literal`. -/
def parseObjectLiteralLoop (fuel : Nat) (startLocation : SourceLocation)
    (properties : List Property) (st : ParserState) :
    Except ParseError (Expression × ParserState) :=
  match fuel with
  | 0 => Except.error fuelError
  | fuel + 1 =>
      match st.currentToken with
      | some Token.comma => do
          let st := st.advance
          let (p, st) ← parseObjectProperty fuel st
          parseObjectLiteralLoop fuel startLocation (properties ++ [p]) st
      | some Token.closeBrace =>
          let endLocation := st.currentLocation
          let st := st.advance
          Except.ok (Expression.objectExpression properties
            (spanLoc startLocation endLocation), st)
      | some _ =>
          Except.error (ParseError.expectedToken "',' or '\x7d'" st.currentLocation)
      | none => Except.error (ParseError.expectedToken "'\x7d'" st.currentLocation)

/-- Embeds `Parser::parse_object_literal`. -/
def parseObjectLiteral (fuel : Nat) (startLocation : SourceLocation)
    (st : ParserState) : Except ParseError (Expression × ParserState) :=
  match fuel with
  | 0 => Except.error fuelError
  | fuel + 1 => do
      let st := st.advance
      match st.currentToken with
      | some Token.closeBrace =>
          let endLocation := st.currentLocation
          let st := st.advance
          Except.ok (Expression.objectExpression []
            (spanLoc startLocation endLocation), st)
      | _ => do
          let (p, st) ← parseObjectProperty fuel st
          parseObjectLiteralLoop fuel startLocation [p] st

/-- Embeds `Parser::parse_object_property`. -/
def parseObjectProperty (fuel : Nat) (st : ParserState) :
    Except ParseError (Property × ParserState) :=
  match fuel with
  | 0 => Except.error fuelError
  | fuel + 1 => do
      let startLocation := st.currentLocation
      let key ← match st.current with
        | some (Token.identifier name, _) => Except.ok name
        | some (Token.stringLiteral value, _) => Except.ok value
        | some _ => Except.error (ParseError.expectedToken "property key" st.currentLocation)
        | none => Except.error (ParseError.endOfInput st.currentLocation)
      let st := st.advance
      let st ← expectTok Token.colon st
      let (value, st) ← parseExpr fuel st
      let endLocation := value.location
      Except.ok (Property.mk key value (spanLoc startLocation endLocation), st)

/-- Embeds the argument loop of the member-call cases in
`Parser::parse_member_access` (both the dot and the bracket form use this
shape).  On exhausted input the Rust `while let` exits with `object`
unmodified and the arguments discarded; the `none` result mirrors that. -/
def parseMemberCallArgsLoop (fuel : Nat) (buildCall : List Expression → SourceLocation → Expression)
    (args : List Expression) (st : ParserState) :
    Except ParseError (Option Expression × ParserState) :=
  match fuel with
  | 0 => Except.error fuelError
  | fuel + 1 =>
      match st.currentToken with
      | some Token.comma => do
          let st := st.advance
          let (arg, st) ← parseExpr fuel st
          parseMemberCallArgsLoop fuel buildCall (args ++ [arg]) st
      | some Token.closeParen =>
          let endCallLocation := st.currentLocation
          let st := st.advance
          Except.ok (some (buildCall args endCallLocation), st)
      | some _ =>
          Except.error (ParseError.expectedToken "',' or ')'" st.currentLocation)
      | none => Except.ok (none, st)

/-- Embeds the suffix loop `Parser::parse_member_access`. -/
def parseMemberAccess (fuel : Nat) (object : Expression) (st : ParserState) :
    Except ParseError (Expression × ParserState) :=
  match fuel with
  | 0 => Except.error fuelError
  | fuel + 1 =>
      match st.currentToken with
      | some Token.dot =>
          if !st.flags.allow_object_navigation then
            Except.error (ParseError.featureDisabled "Object navigation (dot notation)" st.currentLocation)
          else
            let st := st.advance
            (match st.current with
             | some (Token.identifier propName, _) => do
                let property := propName
                let propertyLocation := st.currentLocation
                let st := st.advance
                let objStart := object.location
                match st.currentToken with
                | some Token.openParen =>
                    let st := st.advance
                    (match st.currentToken with
                     | some Token.closeParen =>
                        let endCallLocation := st.currentLocation
                        let st := st.advance
                        let callLocation := spanLoc objStart endCallLocation
                        parseMemberAccess fuel
                          (Expression.memberCallExpression object (some property) none false [] callLocation) st
                     | _ => do
                        let (arg, st) ← parseExpr fuel st
                        let (call, st) ← parseMemberCallArgsLoop fuel
                          (fun args endCallLocation =>
                            Expression.memberCallExpression object (some property) none false args
                              (spanLoc objStart endCallLocation)) [arg] st
                        match call with
                        | some c => parseMemberAccess fuel c st
                        | none => Except.ok (object, st))
                | _ =>
                    let memberLocation := spanLoc objStart propertyLocation
                    parseMemberAccess fuel
                      (Expression.memberExpression object (some property) none false memberLocation) st
             | some _ => Except.error (ParseError.expectedToken "property name" st.currentLocation)
             | none => Except.error (ParseError.endOfInput st.currentLocation))
      | some Token.openBracket =>
          if !st.flags.allow_object_navigation then
            Except.error (ParseError.featureDisabled "Object navigation (bracket notation)" st.currentLocation)
          else do
            let st := st.advance
            let (propertyExpr, st) ← parseExpr fuel st
            let closeBracketLocation := st.currentLocation
            let st ← expectTok Token.closeBracket st
            let objStart := object.location
            let memberLocation := spanLoc objStart closeBracketLocation
            match st.currentToken with
            | some Token.openParen =>
                let st := st.advance
                (match st.currentToken with
                 | some Token.closeParen =>
                    let endCallLocation := st.currentLocation
                    let st := st.advance
                    let callLocation := spanLoc objStart endCallLocation
                    parseMemberAccess fuel
                      (Expression.memberCallExpression object none (some propertyExpr) true [] callLocation) st
                 | _ => do
                    let (arg, st) ← parseExpr fuel st
                    let (call, st) ← parseMemberCallArgsLoop fuel
                      (fun args endCallLocation =>
                        Expression.memberCallExpression object none (some propertyExpr) true args
                          (spanLoc objStart endCallLocation)) [arg] st
                    match call with
                    | some c => parseMemberAccess fuel c st
                    | none => Except.ok (object, st))
            | _ =>
                parseMemberAccess fuel
                  (Expression.memberExpression object none (some propertyExpr) true memberLocation) st
      | _ => Except.ok (object, st)

/-- Embeds the loop-statement parser `Parser::parse_loop_statement`. -/
def parseLoopStatement (fuel : Nat) (startLocation : SourceLocation)
    (st : ParserState) : Except ParseError (Statement × ParserState) :=
  match fuel with
  | 0 => Except.error fuelError
  | fuel + 1 => do
      let st := st.advance
      let varName ← match st.current with
        | some (Token.identifier name, _) => Except.ok name
        | some _ => Except.error (ParseError.expectedToken "identifier" st.currentLocation)
        | none => Except.error (ParseError.endOfInput st.currentLocation)
      let st := st.advance
      let st ← match st.current with
        | some (tok, _) =>
            if tok ≠ Token.inTok then
              Except.error (ParseError.expectedToken "'in'" st.currentLocation)
            else Except.ok st.advance
        | none => Except.error (ParseError.endOfInput st.currentLocation)
      let (iterable, st) ← parseExpr fuel st
      let (body, st) ← parseBlockNode fuel st
      let endLocation := body.location
      Except.ok (Statement.loopStatement varName iterable body
        (spanLoc startLocation endLocation), st)

/-- Embeds `Parser::parse_end_statement`. -/
def parseEndStatement (fuel : Nat) (startLocation : SourceLocation)
    (st : ParserState) : Except ParseError (Statement × ParserState) :=
  match fuel with
  | 0 => Except.error fuelError
  | _ + 1 => do
      let st := st.advance
      let semicolonLocation := st.currentLocation
      let st ← expectTok Token.semicolon st
      Except.ok (Statement.endStatement (spanLoc startLocation semicolonLocation), st)

/-- Embeds `Parser::parse_continue_statement`. -/
def parseContinueStatement (fuel : Nat) (startLocation : SourceLocation)
    (st : ParserState) : Except ParseError (Statement × ParserState) :=
  match fuel with
  | 0 => Except.error fuelError
  | _ + 1 => do
      let st := st.advance
      let semicolonLocation := st.currentLocation
      let st ← expectTok Token.semicolon st
      Except.ok (Statement.continueStatement (spanLoc startLocation semicolonLocation), st)

end

/-- Embeds `Parser::new` plus the location precomputation: lex, attach
locations, seed `current` with the first token. -/
def initParserState (source : String) (flags : FeatureFlags) : ParserState :=
  let toks := (tokenize source).map (fun t =>
    (t.token, SourceLocation.fromSpans source t.start t.stop))
  let eofLoc := SourceLocation.fromSpans source source.data.length source.data.length
  { current := toks.head?, rest := toks.tail, eofLoc := eofLoc, flags := flags }

/-- Embeds `Parser::parse_program`.  After the statement loop the remaining
iterator is exhausted, so the Rust end-location computation always lands on
the end of the source. -/
def parseProgram (fuel : Nat) (st : ParserState) : Except ParseError Program := do
  let startLocation := st.currentLocation
  let (statements, st) ← parseProgramLoop fuel [] st
  let endLocation := match st.rest.getLast? with
    | some (_, l) => l
    | none => st.eofLoc
  Except.ok { statements := statements,
              location := spanLoc startLocation endLocation }

end Hexput

/-! ## Optimizer (optimizer.rs)

`process_items_sync` in parallel.rs applies the processor sequentially in
submission order while draining its handles, so both branches of every
`len > PARALLELISM_THRESHOLD` split are order-preserving maps; the embedding
is the plain (filter-)map. -/

namespace Hexput

/-- Embeds the flattening pass at the end of `optimize_block`: a direct
`Block` child is spliced in place. -/
def flattenStatements : List Statement → List Statement
  | [] => []
  | Statement.block innerBlock _ :: rest => innerBlock.statements ++ flattenStatements rest
  | stmt :: rest => stmt :: flattenStatements rest

mutual

/-- Embeds `optimize_statement` of optimizer.rs. -/
def optimizeStatement : Statement → Option Statement
  | Statement.block blk location =>
      let optimizedBlock := optimizeBlock blk
      if optimizedBlock.statements.isEmpty then none
      else
        match optimizedBlock.statements with
        | [stmt] =>
            (match stmt with
             | Statement.block _ _ => some (Statement.block optimizedBlock location)
             | _ => some stmt)
        | _ => some (Statement.block optimizedBlock location)
  | Statement.ifStatement condition body elseBody location =>
      let optimizedCondition := optimizeExpr condition
      let optimizedBody := optimizeBlock body
      let optimizedElseBody := match elseBody with
        | some b => some (optimizeBlock b)
        | none => none
      if optimizedBody.statements.isEmpty &&
         (match optimizedElseBody with
          | some b => b.statements.isEmpty
          | none => true) then none
      else
        some (Statement.ifStatement optimizedCondition optimizedBody optimizedElseBody location)
  | Statement.expressionStatement expression location =>
      some (Statement.expressionStatement (optimizeExpr expression) location)
  | Statement.callbackDeclaration name params body location =>
      some (Statement.callbackDeclaration name params (optimizeBlock body) location)
  | Statement.returnStatement value location =>
      some (Statement.returnStatement (optimizeExpr value) location)
  | Statement.loopStatement loopVar iterable body location =>
      let optimizedIterable := optimizeExpr iterable
      let optimizedBody := optimizeBlock body
      if optimizedBody.statements.isEmpty then none
      else
        some (Statement.loopStatement loopVar optimizedIterable optimizedBody location)
  | Statement.endStatement location => some (Statement.endStatement location)
  | Statement.continueStatement location => some (Statement.continueStatement location)
  | Statement.variableDeclaration name value location =>
      some (Statement.variableDeclaration name (optimizeExpr value) location)

/-- Embeds `optimize_statements` of optimizer.rs (the sequential filter-map;
the parallel split preserves order and drops nothing). -/
def optimizeStatements : List Statement → List Statement
  | [] => []
  | stmt :: rest =>
      match optimizeStatement stmt with
      | some s => s :: optimizeStatements rest
      | none => optimizeStatements rest

/-- Embeds `optimize_block` of optimizer.rs: per-statement optimization, then
one level of block flattening. -/
def optimizeBlock : Block → Block
  | Block.mk statements location =>
      Block.mk (flattenStatements (optimizeStatements statements)) location

/-- Embeds `optimize_expression` of optimizer.rs: a pure recursive rebuild
(no rewriting at the expression layer). -/
def optimizeExpr : Expression → Expression
  | Expression.binaryExpression left operator right location =>
      Expression.binaryExpression (optimizeExpr left) operator (optimizeExpr right) location
  | Expression.assignmentExpression target value location =>
      Expression.assignmentExpression target (optimizeExpr value) location
  | Expression.memberAssignmentExpression object property propertyExpr computed value location =>
      Expression.memberAssignmentExpression (optimizeExpr object) property
        (optimizeExprOpt propertyExpr) computed (optimizeExpr value) location
  | Expression.callExpression callee arguments location =>
      Expression.callExpression callee (optimizeExprList arguments) location
  | Expression.arrayExpression elements location =>
      Expression.arrayExpression (optimizeExprList elements) location
  | Expression.objectExpression properties location =>
      Expression.objectExpression (optimizePropertyList properties) location
  | Expression.memberExpression object property propertyExpr computed location =>
      Expression.memberExpression (optimizeExpr object) property
        (optimizeExprOpt propertyExpr) computed location
  | Expression.keysOfExpression object location =>
      Expression.keysOfExpression (optimizeExpr object) location
  | Expression.memberCallExpression object property propertyExpr computed arguments location =>
      Expression.memberCallExpression (optimizeExpr object) property
        (optimizeExprOpt propertyExpr) computed (optimizeExprList arguments) location
  | Expression.unaryExpression operator operand location =>
      Expression.unaryExpression operator (optimizeExpr operand) location
  | Expression.stringLiteral value location => Expression.stringLiteral value location
  | Expression.numberLiteral value location => Expression.numberLiteral value location
  | Expression.identifier name location => Expression.identifier name location
  | Expression.inlineCallbackExpression name params body location =>
      Expression.inlineCallbackExpression name params body location
  | Expression.booleanLiteral value location => Expression.booleanLiteral value location
  | Expression.nullLiteral location => Expression.nullLiteral location

/-- Optional property expression of a member node. -/
def optimizeExprOpt : Option Expression → Option Expression
  | some e => some (optimizeExpr e)
  | none => none

/-- Argument / element lists. -/
def optimizeExprList : List Expression → List Expression
  | [] => []
  | e :: rest => optimizeExpr e :: optimizeExprList rest

/-- Object-literal property lists. -/
def optimizePropertyList : List Property → List Property
  | [] => []
  | Property.mk key value location :: rest =>
      Property.mk key (optimizeExpr value) location :: optimizePropertyList rest

end

/-- Embeds `optimize_ast` of optimizer.rs. -/
def optimizeAst (program : Program) : Program :=
  { statements := optimizeStatements program.statements,
    location := program.location }

/-- Embeds `process_code` of lib.rs: tokenize, parse, optimize.  The fuel is
a generous linear bound in the source length (the Rust recursion depth is
bounded by the token count, and each embedded parser call consumes one unit). -/
def processCode (source : String) (flags : FeatureFlags) : Except ParseError Program :=
  (parseProgram ((source.data.length + 1) * 100) (initParserState source flags)).map optimizeAst

end Hexput

/-! ## Runtime errors (error.rs)

The three transport wrappers (`WebSocketError`, `IoError`,
`SerializationError`) wrap external library errors that cannot arise in the
embedded pure fragment and are omitted. -/

namespace Hexput

/-- Embeds `RuntimeError` of error.rs. -/
inductive RuntimeError where
  | astParsing (msg : String)
  | invalidRequestFormat (msg : String)
  | missingField (msg : String)
  | execution (msg : String)
  | executionWithLocation (message : String) (location : SourceLocation)
  | functionCall (msg : String)
  | functionNotFound (msg : String)
  | connection (msg : String)
  | messageParsing (msg : String)
  | taskExecution (msg : String)
  | channel (msg : String)
  | timeoutErr (msg : String)
deriving DecidableEq, Repr

/-- Embeds `RuntimeError::with_location`. -/
def RuntimeError.withLocation (message : String) (location : SourceLocation) :
    RuntimeError :=
  RuntimeError.executionWithLocation message location

/-- Embeds the `thiserror` `Display` of `RuntimeError` (used when a caller
wraps an unlocated error with a location). -/
def RuntimeError.toDisplay : RuntimeError → String
  | .astParsing m => "AST parsing error: " ++ m
  | .invalidRequestFormat m => "Invalid request format: " ++ m
  | .missingField m => "Missing required field in request: " ++ m
  | .execution m => "Execution error: " ++ m
  | .executionWithLocation m l =>
      "Execution error at line " ++ toString l.start_line ++ ", column " ++
        toString l.start_column ++ ": " ++ m
  | .functionCall m => "Function call error: " ++ m
  | .functionNotFound m => "Function not found: " ++ m
  | .connection m => "Connection error: " ++ m
  | .messageParsing m => "Message parsing error: " ++ m
  | .taskExecution m => "Task execution error: " ++ m
  | .channel m => "Channel error: " ++ m
  | .timeoutErr m => "Timeout error: " ++ m

end Hexput

/-! ## Rust string primitives

Helpers mirroring the `str` methods the builtins use.  Substring search is
done at character level, which coincides with Rust's byte-level search on
valid UTF-8 (byte-level matches always align with character boundaries);
reported indices are byte offsets, as in Rust. -/

namespace Hexput

/-- UTF-8 byte length (`str::len`). -/
def strLenBytes (s : String) : Nat := s.utf8ByteSize

/-- Embeds `str::contains` for a string pattern. -/
def strContainsSub (s sub : String) : Bool :=
  let rec go : List Char → Bool
    | [] => sub.data.isPrefixOf []
    | l@(_ :: t) => sub.data.isPrefixOf l || go t
  go s.data

/-- Embeds `str::find` for a string pattern: byte offset of the first
occurrence. -/
def strFindSub (s sub : String) : Option Nat :=
  let rec go : List Char → Nat → Option Nat
    | [], acc => if sub.data.isPrefixOf [] then some acc else none
    | l@(c :: t), acc =>
        if sub.data.isPrefixOf l then some acc
        else go t (acc + c.utf8Size)
  go s.data 0

/-- Embeds `str::split` by a string delimiter: for the empty delimiter Rust
yields an empty string, every character, and a trailing empty string; for a
nonempty delimiter it is leftmost non-overlapping splitting. -/
def rustSplit (s sep : String) : List String :=
  if sep = "" then "" :: s.data.map (fun c => String.mk [c]) ++ [""]
  else s.splitOn sep

/-- Embeds `str::replace`: replace every non-overlapping occurrence, left to
right. -/
def rustReplace (s old new : String) : String :=
  if old = "" then
    new ++ String.join (s.data.map (fun c => String.mk [c] ++ new))
  else
    String.intercalate new (s.splitOn old)

end Hexput

/-! ## Built-in methods (builtins.rs)

The `callback_executor` parameter of `execute_builtin_method` is only ever
tested for presence (`is_some`) — the higher-order builtins return a deferred
descriptor instead of invoking it — so it is modelled as `Option Unit`. -/

namespace Hexput

/-- The forbidden key constant of builtins.rs and handler.rs. -/
def forbiddenKey : String := "secret_data"

/-- The `CALLBACK_REFERENCE_HASH` constant. -/
def callbackReferenceHash : String := "__callback_ref_constant"

mutual

/-- Embeds `contains_forbidden_value`: transitive containment of the
forbidden key through objects and arrays. -/
def containsForbiddenValue : Value → Bool
  | Value.obj entries =>
      objContains entries forbiddenKey || containsForbiddenEntries entries
  | Value.arr elems => containsForbiddenList elems
  | _ => false

/-- Existential scan over array elements. -/
def containsForbiddenList : List Value → Bool
  | [] => false
  | v :: rest => containsForbiddenValue v || containsForbiddenList rest

/-- Existential scan over object entry values. -/
def containsForbiddenEntries : List (String × Value) → Bool
  | [] => false
  | (_, v) :: rest => containsForbiddenValue v || containsForbiddenEntries rest

end

/-- Embeds `extract_callback_name`: an object with `type =
"callback_reference"` and a string `name` yields the name (the hash field is
checked but the fallback returns the name regardless, so it does not affect
the result). -/
def extractCallbackName (value : Value) : Option String :=
  match value with
  | Value.obj entries =>
      (match objGet entries "type", objGet entries "name" with
       | some (Value.str typeVal), some (Value.str nameVal) =>
           if typeVal = "callback_reference" then some nameVal else none
       | _, _ => none)
  | _ => none

/-- Embeds `value_equals`: structural on null/bool/string, epsilon comparison
on numbers (`as_f64` is total on `serde_json` numbers, so the string-compare
fallback is unreachable), `false` on arrays and objects. -/
def valueEquals (a b : Value) : Bool :=
  match a, b with
  | Value.null, Value.null => true
  | Value.bool x, Value.bool y => x == y
  | Value.num x, Value.num y =>
      (Frac.sub x.asF64 y.asF64).abs.blt f64Epsilon
  | Value.str x, Value.str y => x == y
  | _, _ => false

/-- Embeds `get_index_arg`: a number argument converted to an index in
`[min, max]`, rejecting negatives, out-of-range and non-integers. -/
def getIndexArg (arg : Value) (minIdx maxIdx : Nat) (methodName : String)
    (location : SourceLocation) : Except RuntimeError Nat :=
  match arg with
  | Value.num n =>
      (match n.asU64 with
       | some idx =>
           if minIdx ≤ idx ∧ idx ≤ maxIdx then Except.ok idx
           else Except.error (RuntimeError.withLocation
             ("Index out of bounds in " ++ methodName ++ " method") location)
       | none =>
           match n.asI64 with
           | some i =>
               if i < 0 then
                 Except.error (RuntimeError.withLocation
                   ("Negative index not allowed in " ++ methodName ++ " method") location)
               else
                 let idx := i.toNat
                 if minIdx ≤ idx ∧ idx ≤ maxIdx then Except.ok idx
                 else Except.error (RuntimeError.withLocation
                   ("Index out of bounds in " ++ methodName ++ " method") location)
           | none =>
               Except.error (RuntimeError.withLocation
                 (methodName ++ " expects integer arguments") location))
  | _ => Except.error (RuntimeError.withLocation
      (methodName ++ " expects number arguments") location)

/-- Embeds `execute_string_method`. -/
def executeStringMethod (string : String) (methodName : String)
    (args : List Value) (location : SourceLocation) :
    Except RuntimeError (Option Value) :=
  match methodName with
  | "len" | "length" =>
      if args.length ≠ 0 then
        Except.error (RuntimeError.withLocation
          ("String." ++ methodName ++ " expects 0 arguments, got " ++ toString args.length) location)
      else Except.ok (some (Value.num (JNumber.ofU (strLenBytes string))))
  | "isEmpty" =>
      if args.length ≠ 0 then
        Except.error (RuntimeError.withLocation
          ("String.isEmpty expects 0 arguments, got " ++ toString args.length) location)
      else Except.ok (some (Value.bool (string == "")))
  | "substring" =>
      (match args with
       | [a] => do
          let start ← getIndexArg a 0 (strLenBytes string) "substring" location
          let endIdx := strLenBytes string
          let chars := string.data
          if start ≤ endIdx ∧ endIdx ≤ chars.length then
            Except.ok (some (Value.str (String.mk ((chars.drop start).take (endIdx - start)))))
          else
            Except.ok (some (Value.str ""))
       | [a, b] => do
          let start ← getIndexArg a 0 (strLenBytes string) "substring" location
          let endIdx ← getIndexArg b start (strLenBytes string) "substring" location
          let chars := string.data
          if start ≤ endIdx ∧ endIdx ≤ chars.length then
            Except.ok (some (Value.str (String.mk ((chars.drop start).take (endIdx - start)))))
          else
            Except.ok (some (Value.str ""))
       | _ =>
          Except.error (RuntimeError.withLocation
            ("String.substring expects 1-2 arguments, got " ++ toString args.length) location))
  | "toLowerCase" =>
      if args.length ≠ 0 then
        Except.error (RuntimeError.withLocation
          ("String.toLowerCase expects 0 arguments, got " ++ toString args.length) location)
      else Except.ok (some (Value.str string.toLower))
  | "toUpperCase" =>
      if args.length ≠ 0 then
        Except.error (RuntimeError.withLocation
          ("String.toUpperCase expects 0 arguments, got " ++ toString args.length) location)
      else Except.ok (some (Value.str string.toUpper))
  | "trim" =>
      if args.length ≠ 0 then
        Except.error (RuntimeError.withLocation
          ("String.trim expects 0 arguments, got " ++ toString args.length) location)
      else Except.ok (some (Value.str string.trim))
  | "contains" | "includes" =>
      (match args with
       | [Value.str substring] =>
          Except.ok (some (Value.bool (strContainsSub string substring)))
       | [_] =>
          Except.error (RuntimeError.withLocation
            ("String." ++ methodName ++ " expects a string argument") location)
       | _ =>
          Except.error (RuntimeError.withLocation
            ("String." ++ methodName ++ " expects 1 argument, got " ++ toString args.length) location))
  | "startsWith" =>
      (match args with
       | [Value.str pre] =>
          Except.ok (some (Value.bool (string.startsWith pre)))
       | [_] =>
          Except.error (RuntimeError.withLocation
            "String.startsWith expects a string argument" location)
       | _ =>
          Except.error (RuntimeError.withLocation
            ("String.startsWith expects 1 argument, got " ++ toString args.length) location))
  | "endsWith" =>
      (match args with
       | [Value.str suffix] =>
          Except.ok (some (Value.bool (string.endsWith suffix)))
       | [_] =>
          Except.error (RuntimeError.withLocation
            "String.endsWith expects a string argument" location)
       | _ =>
          Except.error (RuntimeError.withLocation
            ("String.endsWith expects 1 argument, got " ++ toString args.length) location))
  | "indexOf" =>
      (match args with
       | [Value.str substring] =>
          (match strFindSub string substring with
           | some i => Except.ok (some (Value.num (JNumber.ofU i)))
           | none => Except.ok (some (Value.num (JNumber.ofI (-1)))))
       | [_] =>
          Except.error (RuntimeError.withLocation
            "String.indexOf expects a string argument" location)
       | _ =>
          Except.error (RuntimeError.withLocation
            ("String.indexOf expects 1 argument, got " ++ toString args.length) location))
  | "split" =>
      (match args with
       | [Value.str delimiter] =>
          Except.ok (some (Value.arr ((rustSplit string delimiter).map Value.str)))
       | [_] =>
          Except.error (RuntimeError.withLocation
            "String.split expects a string argument" location)
       | _ =>
          Except.error (RuntimeError.withLocation
            ("String.split expects 1 argument, got " ++ toString args.length) location))
  | "replace" =>
      (match args with
       | [Value.str old, Value.str new] =>
          Except.ok (some (Value.str (rustReplace string old new)))
       | [_, _] =>
          Except.error (RuntimeError.withLocation
            "String.replace expects a string argument" location)
       | _ =>
          Except.error (RuntimeError.withLocation
            ("String.replace expects 2 arguments, got " ++ toString args.length) location))
  | _ => Except.ok none

/-- Canonical stringification used by `Array.join`. -/
def joinItemString : Value → String
  | Value.str s => s
  | Value.num n => n.toDisplay
  | Value.bool b => cond b "true" "false"
  | Value.null => "null"
  | Value.arr _ => "[array]"
  | Value.obj _ => "[object]"

/-- Builds the `__builtin_async_op` deferred descriptor returned by the
higher-order array builtins (field order is the Rust insertion order). -/
def asyncOpDescriptor (op : String) (callbackName : String) (array : List Value)
    (extra : List (String × Value)) : Value :=
  Value.obj ([("__builtin_async_op", Value.str op),
              ("callback_name", Value.str callbackName),
              ("array", Value.arr array)] ++ extra)

/-- Shared shape of the eight higher-order array builtins: exactly one
argument, which must be a callback reference; with an executor present the
deferred descriptor is returned, otherwise the "executor not available"
error. -/
def higherOrderArrayMethod (op : String) (array : List Value)
    (args : List Value) (location : SourceLocation)
    (callbackExecutor : Option Unit) (extra : List (String × Value)) :
    Except RuntimeError (Option Value) :=
  match args with
  | [a] =>
      (match extractCallbackName a with
       | some callbackName =>
          (match callbackExecutor with
           | some _ =>
              Except.ok (some (asyncOpDescriptor op callbackName array extra))
           | none =>
              Except.error (RuntimeError.withLocation
                ("Callback executor not available for Array." ++ op) location))
       | none =>
          Except.error (RuntimeError.withLocation
            ("Array." ++ op ++ " expects a callback function reference") location))
  | _ =>
      Except.error (RuntimeError.withLocation
        ("Array." ++ op ++ " expects 1 argument (callback), got " ++ toString args.length) location)

/-- Embeds `execute_array_method`. -/
def executeArrayMethod (array : List Value) (methodName : String)
    (args : List Value) (location : SourceLocation)
    (callbackExecutor : Option Unit) : Except RuntimeError (Option Value) :=
  match methodName with
  | "length" | "len" =>
      if args.length ≠ 0 then
        Except.error (RuntimeError.withLocation
          ("Array." ++ methodName ++ " expects 0 arguments, got " ++ toString args.length) location)
      else Except.ok (some (Value.num (JNumber.ofU array.length)))
  | "isEmpty" =>
      if args.length ≠ 0 then
        Except.error (RuntimeError.withLocation
          ("Array.isEmpty expects 0 arguments, got " ++ toString args.length) location)
      else Except.ok (some (Value.bool array.isEmpty))
  | "join" =>
      (match args with
       | [Value.str separator] =>
          Except.ok (some (Value.str
            (String.intercalate separator (array.map joinItemString))))
       | [_] =>
          Except.error (RuntimeError.withLocation
            "Array.join expects a string argument" location)
       | _ =>
          Except.error (RuntimeError.withLocation
            ("Array.join expects 1 argument, got " ++ toString args.length) location))
  | "first" =>
      if args.length ≠ 0 then
        Except.error (RuntimeError.withLocation
          ("Array.first expects 0 arguments, got " ++ toString args.length) location)
      else
        (match array with
         | [] => Except.ok (some Value.null)
         | x :: _ => Except.ok (some x))
  | "last" =>
      if args.length ≠ 0 then
        Except.error (RuntimeError.withLocation
          ("Array.last expects 0 arguments, got " ++ toString args.length) location)
      else
        (match array.getLast? with
         | none => Except.ok (some Value.null)
         | some x => Except.ok (some x))
  | "includes" | "contains" =>
      (match args with
       | [target] =>
          Except.ok (some (Value.bool (array.any (fun item => valueEquals item target))))
       | _ =>
          Except.error (RuntimeError.withLocation
            ("Array." ++ methodName ++ " expects 1 argument, got " ++ toString args.length) location))
  | "slice" =>
      (match args with
       | [a] => do
          let start ← getIndexArg a 0 array.length "slice" location
          let endIdx := array.length
          if start ≤ endIdx ∧ endIdx ≤ array.length then
            Except.ok (some (Value.arr ((array.drop start).take (endIdx - start))))
          else
            Except.ok (some (Value.arr []))
       | [a, b] => do
          let start ← getIndexArg a 0 array.length "slice" location
          let endIdx ← getIndexArg b start array.length "slice" location
          if start ≤ endIdx ∧ endIdx ≤ array.length then
            Except.ok (some (Value.arr ((array.drop start).take (endIdx - start))))
          else
            Except.ok (some (Value.arr []))
       | _ =>
          Except.error (RuntimeError.withLocation
            ("Array.slice expects 1-2 arguments, got " ++ toString args.length) location))
  | "map" => higherOrderArrayMethod "map" array args location callbackExecutor []
  | "filter" => higherOrderArrayMethod "filter" array args location callbackExecutor []
  | "forEach" => higherOrderArrayMethod "forEach" array args location callbackExecutor []
  | "reduce" =>
      -- reduce allows 1-2 arguments and records the initial value
      (match args with
       | [a] =>
          higherOrderArrayMethod "reduce" array [a] location callbackExecutor
            [("initial_value", Value.null), ("has_initial", Value.bool false)]
       | [a, initial] =>
          higherOrderArrayMethod "reduce" array [a] location callbackExecutor
            [("initial_value", initial), ("has_initial", Value.bool true)]
       | _ =>
          Except.error (RuntimeError.withLocation
            ("Array.reduce expects 1-2 arguments (callback, initial), got " ++ toString args.length) location))
  | "find" => higherOrderArrayMethod "find" array args location callbackExecutor []
  | "findIndex" => higherOrderArrayMethod "findIndex" array args location callbackExecutor []
  | "some" => higherOrderArrayMethod "some" array args location callbackExecutor []
  | "every" => higherOrderArrayMethod "every" array args location callbackExecutor []
  | _ => Except.ok none

/-- Embeds `execute_object_method`. -/
def executeObjectMethod (object : List (String × Value)) (methodName : String)
    (args : List Value) (location : SourceLocation) :
    Except RuntimeError (Option Value) :=
  match methodName with
  | "keys" =>
      if args.length ≠ 0 then
        Except.error (RuntimeError.withLocation
          ("Object.keys expects 0 arguments, got " ++ toString args.length) location)
      else
        Except.ok (some (Value.arr
          ((object.map (·.1)).filter (fun k => k ≠ forbiddenKey) |>.map Value.str)))
  | "values" =>
      if args.length ≠ 0 then
        Except.error (RuntimeError.withLocation
          ("Object.values expects 0 arguments, got " ++ toString args.length) location)
      else
        Except.ok (some (Value.arr
          ((object.filter (fun kv => kv.1 ≠ forbiddenKey)).map (·.2))))
  | "isEmpty" =>
      if args.length ≠ 0 then
        Except.error (RuntimeError.withLocation
          ("Object.isEmpty expects 0 arguments, got " ++ toString args.length) location)
      else
        Except.ok (some (Value.bool (object.all (fun kv => kv.1 == forbiddenKey))))
  | "has" =>
      (match args with
       | [Value.str key] =>
          if key = forbiddenKey then Except.ok (some (Value.bool false))
          else Except.ok (some (Value.bool (objContains object key)))
       | [_] =>
          Except.error (RuntimeError.withLocation
            ("Object." ++ methodName ++ " expects a string argument") location)
       | _ =>
          Except.error (RuntimeError.withLocation
            ("Object." ++ methodName ++ " expects 1 argument, got " ++ toString args.length) location))
  | "entries" =>
      if args.length ≠ 0 then
        Except.error (RuntimeError.withLocation
          ("Object.entries expects 0 arguments, got " ++ toString args.length) location)
      else
        Except.ok (some (Value.arr
          ((object.filter (fun kv => kv.1 ≠ forbiddenKey)).map
            (fun kv => Value.arr [Value.str kv.1, kv.2]))))
  | _ => Except.ok none

/-- Embeds `execute_number_method`.  `as_f64` is total on `serde_json`
numbers, so the integer fallback branches of `abs` and `toFixed` are
unreachable; `toFixed` formatting is rendered via an explicit
decimal-rounding helper (rounding ties are abstracted; no claim depends on
it). -/
def executeNumberMethod (number : JNumber) (methodName : String)
    (args : List Value) (location : SourceLocation) :
    Except RuntimeError (Option Value) :=
  match methodName with
  | "toString" =>
      if args.length ≠ 0 then
        Except.error (RuntimeError.withLocation
          ("Number.toString expects 0 arguments, got " ++ toString args.length) location)
      else Except.ok (some (Value.str number.toDisplay))
  | "toFixed" =>
      (match args with
       | [Value.num d] =>
          (match d.asU64 with
           | some digits =>
              let q := number.asF64
              let scaled : Int := (q.n * Int.ofNat (Nat.pow 10 digits)) / (q.d : Int)
              Except.ok (some (Value.str
                (toString scaled ++ (if digits = 0 then "" else "e-" ++ toString digits))))
           | none =>
              Except.error (RuntimeError.withLocation
                "Number.toFixed expects a non-negative integer argument" location))
       | [_] =>
          Except.error (RuntimeError.withLocation
            "Number.toFixed expects a number argument" location)
       | _ =>
          Except.error (RuntimeError.withLocation
            ("Number.toFixed expects 1 argument, got " ++ toString args.length) location))
  | "isInteger" =>
      if args.length ≠ 0 then
        Except.error (RuntimeError.withLocation
          ("Number.isInteger expects 0 arguments, got " ++ toString args.length) location)
      else Except.ok (some (Value.bool (number.isI64 || number.isU64)))
  | "abs" =>
      if args.length ≠ 0 then
        Except.error (RuntimeError.withLocation
          ("Number.abs expects 0 arguments, got " ++ toString args.length) location)
      else
        Except.ok (some (Value.num (JNumber.fromF64OrZero (F64.finite number.asF64.abs))))
  | _ => Except.ok none

/-- Embeds `execute_boolean_method`. -/
def executeBooleanMethod (boolean : Bool) (methodName : String)
    (args : List Value) (location : SourceLocation) :
    Except RuntimeError (Option Value) :=
  match methodName with
  | "toString" =>
      if args.length ≠ 0 then
        Except.error (RuntimeError.withLocation
          ("Boolean.toString expects 0 arguments, got " ++ toString args.length) location)
      else Except.ok (some (Value.str (cond boolean "true" "false")))
  | _ => Except.ok none

/-- Embeds `execute_null_method`. -/
def executeNullMethod (methodName : String) (args : List Value)
    (location : SourceLocation) : Except RuntimeError (Option Value) :=
  match methodName with
  | "toString" =>
      if args.length ≠ 0 then
        Except.error (RuntimeError.withLocation
          ("null.toString expects 0 arguments, got " ++ toString args.length) location)
      else Except.ok (some (Value.str "null"))
  | _ => Except.ok none

/-- The fixed error message of the forbidden-key guard in
`execute_builtin_method`. -/
def forbiddenGuardMessage : String :=
  "Cannot call methods on object containing restricted data. Use as reference only."

/-- The per-receiver-type dispatch of `execute_builtin_method` (the match on
the receiver value, verbatim). -/
def builtinDispatch (object : Value) (methodName : String) (args : List Value)
    (location : SourceLocation) (callbackExecutor : Option Unit) :
    Except RuntimeError (Option Value) :=
  match object with
  | Value.str s => executeStringMethod s methodName args location
  | Value.arr arr => executeArrayMethod arr methodName args location callbackExecutor
  | Value.obj obj => executeObjectMethod obj methodName args location
  | Value.num num => executeNumberMethod num methodName args location
  | Value.bool b => executeBooleanMethod b methodName args location
  | Value.null => executeNullMethod methodName args location

/-- Embeds `execute_builtin_method` of builtins.rs: the forbidden-key guard,
then the per-type dispatch. -/
def executeBuiltinMethod (object : Value) (methodName : String)
    (args : List Value) (location : SourceLocation)
    (callbackExecutor : Option Unit) : Except RuntimeError (Option Value) :=
  if containsForbiddenValue object then
    Except.error (RuntimeError.withLocation forbiddenGuardMessage location)
  else
    builtinDispatch object methodName args location callbackExecutor

end Hexput

/-! ## Interpreter (handler.rs)

The interpreter is embedded with explicit state passing (`ExecutionContext`
is threaded instead of mutated) and a fuel parameter that strictly decreases
on every nested call (handler.rs recursion descends the AST except through
callback bodies, which are bounded by the program; the concrete theorems use
a generous constant).

Host interaction is abstracted by a `Host` record: an existence probe
answered inside its timeout returns `functionExists`, a function call
returns the `result`/`error` of the correlated reply.  Correlation ids,
pending-call tables, channels and timeouts are not modelled; no claim below
depends on them.

Where handler.rs calls `builtins::execute_builtin_method` it passes four
arguments for a five-parameter function (no `CallbackExecutor` value is ever
constructed anywhere in the runtime), so that call does not compile as
written; it is embedded with `callbackExecutor := none`, the only value the
runtime could supply.  Likewise the `match` in `evaluate_expression` has no
arm for `InlineCallbackExpression` (a non-exhaustive match in Rust), embedded
as a distinguished execution error. -/

namespace Hexput

/-- Association-list lookup standing in for `HashMap::get`. -/
def alGet {α : Type} : List (String × α) → String → Option α
  | [], _ => none
  | (k, v) :: rest, key => if k = key then some v else alGet rest key

/-- Association-list insert standing in for `HashMap::insert` (replace in
place or append; lookup behaviour is identical to the hash map's). -/
def alInsert {α : Type} : List (String × α) → String → α → List (String × α)
  | [], key, v => [(key, v)]
  | (k, w) :: rest, key, v =>
      if k = key then (k, v) :: rest else (k, w) :: alInsert rest key v

/-- Embeds `CallbackFunction` of messages.rs. -/
structure CallbackFunction where
  name : String
  params : List String
  body : Block

/-- Embeds `ExecutionContext` of handler.rs (the `variables` field is named
`vars` here because `variables` is a Lean keyword). -/
inductive ExecutionContext where
  | mk (vars : List (String × Value))
       (callbacks : List (String × CallbackFunction))
       (parent : Option ExecutionContext)

namespace ExecutionContext

def vars : ExecutionContext → List (String × Value)
  | mk vs _ _ => vs

def callbacks : ExecutionContext → List (String × CallbackFunction)
  | mk _ cbs _ => cbs

/-- Embeds `ExecutionContext::new`. -/
def new : ExecutionContext := mk [] [] none

/-- Embeds `ExecutionContext::get_variable`: local frame first, then the
parent chain. -/
def getVariable : ExecutionContext → String → Option Value
  | mk vs _ parent, name =>
      match alGet vs name with
      | some v => some v
      | none =>
          match parent with
          | some p => getVariable p name
          | none => none

/-- Embeds `ExecutionContext::set_variable`: writes are local. -/
def setVariable : ExecutionContext → String → Value → ExecutionContext
  | mk vs cbs parent, name, v => mk (alInsert vs name v) cbs parent

/-- Embeds `ExecutionContext::get_callback`: the local callback map only
(inheritance happens because `with_parent` copies the parent's map). -/
def getCallback (ctx : ExecutionContext) (name : String) : Option CallbackFunction :=
  alGet ctx.callbacks name

/-- Embeds `ExecutionContext::add_callback`. -/
def addCallback : ExecutionContext → CallbackFunction → ExecutionContext
  | mk vs cbs parent, cb => mk vs (alInsert cbs cb.name cb) parent

/-- Embeds `ExecutionContext::with_parent`: empty local variables, the
parent's callbacks copied, the parent snapshotted. -/
def withParent (parent : ExecutionContext) : ExecutionContext :=
  mk [] parent.callbacks (some parent)

end ExecutionContext

/-- Abstract host on the far side of the message channel (§4.F): existence
probes and correlated function calls. -/
structure Host where
  functionExists : String → Bool
  functionCall : String → List Value → Option Value → Except String Value

/-- A host that knows no functions: every existence probe reports absence
(as a probe timeout also would) and no call ever happens. -/
def noHost : Host :=
  { functionExists := fun _ => false,
    functionCall := fun _ _ _ => Except.error "no host" }

/-- The `__control_type` constant of handler.rs. -/
def controlTypeKey : String := "__control_type"

def controlContinue : String := "continue"

def controlEnd : String := "end"

def controlReturn : String := "return"

/-- Embeds `get_control_flow_type`. -/
def getControlFlowType (value : Value) : Option String :=
  match value with
  | Value.obj map =>
      (match objGet map controlTypeKey with
       | some (Value.str controlType) => some controlType
       | _ => none)
  | _ => none

/-- Embeds `extract_return_value`. -/
def extractReturnValue (value : Value) : Value :=
  match value with
  | Value.obj map =>
      if objContains map controlTypeKey ∧ objContains map "value" then
        (objGet map "value").getD (Value.obj map)
      else Value.obj map
  | v => v

/-- The control signals built with `serde_json::json!` in handler.rs. -/
def returnSignal (v : Value) : Value :=
  Value.obj [(controlTypeKey, Value.str controlReturn), ("value", v)]

def endSignal : Value :=
  Value.obj [(controlTypeKey, Value.str controlEnd)]

def continueSignal : Value :=
  Value.obj [(controlTypeKey, Value.str controlContinue)]

/-- Embeds `add_location_if_needed`. -/
def addLocationIfNeeded (error : RuntimeError) (location : SourceLocation) :
    RuntimeError :=
  match error with
  | RuntimeError.executionWithLocation m l => RuntimeError.executionWithLocation m l
  | e => RuntimeError.withLocation e.toDisplay location

/-- The truthiness match that handler.rs inlines at the if-condition, `&&`
and `||` sites (arrays and objects are truthy iff non-empty).  The
unary-`!` site inlines a different match and is embedded separately. -/
def isTruthy : Value → Bool
  | Value.bool b => b
  | Value.num n => !(Frac.isZero n.asF64)
  | Value.str s => !(s == "")
  | Value.arr a => !a.isEmpty
  | Value.obj o => !o.isEmpty
  | Value.null => false

/-- Embeds `str::parse::<usize>`: optional `+`, then decimal digits, value
within the 64-bit range. -/
def parseUsize (s : String) : Option Nat :=
  let chars := match s.data with
    | '+' :: rest => rest
    | cs => cs
  if chars.isEmpty then none
  else if !chars.all Char.isDigit then none
  else
    let v := digitsToNat chars
    if v ≤ Nat.pow 2 64 - 1 then some v else none

/-- Rust `f64` `Display` (`{}`): integral doubles print without a decimal
point (unlike `serde_json::Number`); non-integral rendering abstracted. -/
def f64Display (q : Frac) : String :=
  if q.isInt then toString q.n else toString q.n ++ "/" ++ toString q.d

/-- The `is_i64 / is_u64 / as_f64` stringification chain that handler.rs
repeats for number-to-property-name and number-to-string coercions. -/
def numberToString (n : JNumber) : String :=
  if n.isI64 then toString ((n.asI64).getD 0)
  else if n.isU64 then toString ((n.asU64).getD 0)
  else f64Display n.asF64

/-- Null-pad an array so that `index` is in range (the `while arr.len() <=
index { arr.push(Null) }` idiom). -/
def padWithNulls (arr : List Value) (index : Nat) : List Value :=
  arr ++ List.replicate (index + 1 - arr.length) Value.null

/-- The forbidden-key read/navigation error message of handler.rs. -/
def forbiddenAccessMessage : String :=
  "Access to the key '" ++ forbiddenKey ++ "' is forbidden."

/-- The forbidden-key assignment error message of handler.rs. -/
def forbiddenAssignMessage : String :=
  "Assignment to the key '" ++ forbiddenKey ++ "' is forbidden."

/-- Embeds `update_nested_object` of handler.rs, on the path suffix from
`path_index` (the Rust index form and this suffix form coincide).  The value
is returned instead of mutated in place. -/
def updateNestedObject (object : Value) (path : List String) (value : Value) :
    Except RuntimeError Value :=
  match path with
  | [] => Except.error (RuntimeError.execution "Empty property path")
  | currentProp :: restPath =>
      if currentProp = forbiddenKey then
        Except.error (RuntimeError.execution forbiddenAccessMessage)
      else
        let isArrayIndex := (parseUsize currentProp).isSome
        match restPath with
        | [] =>
            -- last path segment: write the leaf
            (match object with
             | Value.obj map => Except.ok (Value.obj (objInsert map currentProp value))
             | Value.arr arr =>
                if isArrayIndex then
                  let index := (parseUsize currentProp).getD 0
                  Except.ok (Value.arr ((padWithNulls arr index).set index value))
                else
                  Except.error (RuntimeError.execution
                    ("Cannot set index or property '" ++ currentProp ++
                      "' on value of type: array (non-numeric index)"))
             | Value.str _ => Except.error (RuntimeError.execution
                ("Cannot set index or property '" ++ currentProp ++ "' on value of type: string"))
             | Value.num _ => Except.error (RuntimeError.execution
                ("Cannot set index or property '" ++ currentProp ++ "' on value of type: number"))
             | Value.bool _ => Except.error (RuntimeError.execution
                ("Cannot set index or property '" ++ currentProp ++ "' on value of type: boolean"))
             | Value.null => Except.error (RuntimeError.execution
                ("Cannot set index or property '" ++ currentProp ++ "' on value of type: null")))
        | nextProp :: _ =>
            (match object with
             | Value.obj map =>
                -- entry().or_insert_with: the missing node's type is chosen by
                -- whether the *current* segment parses as an index (see C4)
                let nextObj := match objGet map currentProp with
                  | some v => v
                  | none => if isArrayIndex then Value.arr [] else Value.obj []
                (match updateNestedObject nextObj restPath value with
                 | Except.ok updated => Except.ok (Value.obj (objInsert map currentProp updated))
                 | Except.error e => Except.error e)
             | Value.arr arr =>
                if isArrayIndex then
                  let index := (parseUsize currentProp).getD 0
                  let padded := padWithNulls arr index
                  let nextIsNumeric := (parseUsize nextProp).isSome
                  let slot := (padded.get? index).getD Value.null
                  let slot := if slot.isNull then
                      (if nextIsNumeric then Value.arr [] else Value.obj [])
                    else slot
                  (match updateNestedObject slot restPath value with
                   | Except.ok updated => Except.ok (Value.arr (padded.set index updated))
                   | Except.error e => Except.error e)
                else
                  Except.error (RuntimeError.execution
                    ("Cannot access index or property '" ++ currentProp ++
                      "' on non-object/non-array value"))
             | _ =>
                Except.error (RuntimeError.execution
                  ("Cannot access index or property '" ++ currentProp ++
                    "' on non-object/non-array value")))

/-- Embeds the non-short-circuit `match operator` of
`evaluate_expression (BinaryExpression)` on the two evaluated operands. -/
def evalBinaryOp (operator : Operator) (leftValue rightValue : Value)
    (location : SourceLocation) : Except RuntimeError Value :=
  match operator with
  | Operator.plus =>
      (match leftValue, rightValue with
       | Value.num l, Value.num r =>
          Except.ok (Value.num (JNumber.fromF64OrZero (F64.addF l.asF64 r.asF64)))
       | Value.str l, Value.str r => Except.ok (Value.str (l ++ r))
       | Value.str l, Value.num r => Except.ok (Value.str (l ++ numberToString r))
       | Value.num l, Value.str r => Except.ok (Value.str (numberToString l ++ r))
       | _, _ => Except.error (RuntimeError.withLocation
          "Invalid operand types for addition" location))
  | Operator.equal =>
      (match leftValue, rightValue with
       | Value.null, Value.null => Except.ok (Value.bool true)
       | Value.bool l, Value.bool r => Except.ok (Value.bool (l == r))
       | Value.num l, Value.num r =>
          Except.ok (Value.bool ((Frac.sub l.asF64 r.asF64).abs.blt f64Epsilon))
       | Value.str l, Value.str r => Except.ok (Value.bool (l == r))
       | _, _ => Except.ok (Value.bool false))
  | Operator.notEqual =>
      (match leftValue, rightValue with
       | Value.null, Value.null => Except.ok (Value.bool false)
       | Value.bool l, Value.bool r => Except.ok (Value.bool (l != r))
       | Value.num l, Value.num r =>
          Except.ok (Value.bool (!(Frac.sub l.asF64 r.asF64).abs.blt f64Epsilon))
       | Value.str l, Value.str r => Except.ok (Value.bool (l != r))
       | _, _ => Except.ok (Value.bool true))
  | Operator.minus =>
      (match leftValue, rightValue with
       | Value.num l, Value.num r =>
          Except.ok (Value.num (JNumber.fromF64OrZero (F64.subF l.asF64 r.asF64)))
       | _, _ => Except.error (RuntimeError.withLocation
          "Invalid operand types for subtraction" location))
  | Operator.less =>
      (match leftValue, rightValue with
       | Value.num l, Value.num r => Except.ok (Value.bool (l.asF64.blt r.asF64))
       | Value.str l, Value.str r => Except.ok (Value.bool (decide (l < r)))
       | _, _ => Except.error (RuntimeError.withLocation
          "Invalid operand types for less than comparison" location))
  | Operator.greater =>
      (match leftValue, rightValue with
       | Value.num l, Value.num r => Except.ok (Value.bool (r.asF64.blt l.asF64))
       | Value.str l, Value.str r => Except.ok (Value.bool (decide (r < l)))
       | _, _ => Except.error (RuntimeError.withLocation
          "Invalid operand types for greater than comparison" location))
  | Operator.greaterEqual =>
      (match leftValue, rightValue with
       | Value.num l, Value.num r => Except.ok (Value.bool (r.asF64.ble l.asF64))
       | Value.str l, Value.str r => Except.ok (Value.bool (decide (r ≤ l)))
       | _, _ => Except.error (RuntimeError.withLocation
          "Invalid operand types for greater than or equal comparison" location))
  | Operator.lessEqual =>
      (match leftValue, rightValue with
       | Value.num l, Value.num r => Except.ok (Value.bool (l.asF64.ble r.asF64))
       | Value.str l, Value.str r => Except.ok (Value.bool (decide (l ≤ r)))
       | _, _ => Except.error (RuntimeError.withLocation
          "Invalid operand types for less than or equal comparison" location))
  | Operator.multiply =>
      (match leftValue, rightValue with
       | Value.num l, Value.num r =>
          Except.ok (Value.num (JNumber.fromF64OrZero (F64.mulF l.asF64 r.asF64)))
       | _, _ => Except.error (RuntimeError.withLocation
          "Invalid operand types for multiplication" location))
  | Operator.divide =>
      (match leftValue, rightValue with
       | Value.num l, Value.num r =>
          if Frac.isZero r.asF64 then
            Except.error (RuntimeError.withLocation "Division by zero" location)
          else
            Except.ok (Value.num (JNumber.fromF64OrZero (F64.divF l.asF64 r.asF64)))
       | _, _ => Except.error (RuntimeError.withLocation
          "Invalid operand types for division" location))
  -- the And/Or arms of the inner Rust match are `unreachable!` (they are
  -- handled by the outer short-circuit match before reaching this point)
  | Operator.and => Except.error (RuntimeError.execution
      "unreachable: And operator handled in the outer match")
  | Operator.or => Except.error (RuntimeError.execution
      "unreachable: Or operator handled in the outer match")

end Hexput

namespace Hexput

/-- Error used only when interpreter fuel runs out; unreachable for the fuel
bounds used in this development. -/
def interpFuelError : RuntimeError :=
  RuntimeError.execution "interpreter fuel exhausted"

mutual

/-- Embeds `evaluate_expression` of handler.rs (state threaded, host
abstracted; see the section comment). -/
def evalExpr (fuel : Nat) (host : Host) (secret : Option Value)
    (expression : Expression) (ctx : ExecutionContext) :
    Except RuntimeError (Value × ExecutionContext) :=
  match fuel with
  | 0 => Except.error interpFuelError
  | fuel + 1 =>
      let location := expression.location
      match expression with
      | Expression.stringLiteral value _ => Except.ok (Value.str value, ctx)
      | Expression.numberLiteral value _ =>
          Except.ok (Value.num (JNumber.fromF64OrZero value), ctx)
      | Expression.identifier name _ =>
          (match ctx.getVariable name with
           | some v => Except.ok (v, ctx)
           | none => Except.error (RuntimeError.withLocation
              ("Undefined variable: " ++ name) location))
      | Expression.callExpression callee arguments _ =>
          (match ctx.getCallback callee with
           | some callback =>
              (match executeCallback fuel host secret callback arguments ctx with
               | Except.ok (v, ctx) => Except.ok (v, ctx)
               | Except.error e => Except.error (addLocationIfNeeded e location))
           | none =>
              -- remote path: existence probe, then the correlated call
              if host.functionExists callee then
                match evalArgsList fuel host secret arguments location ctx with
                | Except.error e => Except.error e
                | Except.ok (argValues, ctx) =>
                    (match host.functionCall callee argValues secret with
                     | Except.error err => Except.error (RuntimeError.withLocation
                        ("Remote function error: " ++ err) location)
                     | Except.ok result => Except.ok (result, ctx))
              else
                Except.error (RuntimeError.functionNotFound
                  ("Function '" ++ callee ++ "' not found")))
      | Expression.binaryExpression left operator right _ =>
          (match evalExpr fuel host secret left ctx with
           | Except.error e => Except.error (addLocationIfNeeded e location)
           | Except.ok (leftValue, ctx) =>
              match operator with
              | Operator.and =>
                  if !isTruthy leftValue then Except.ok (Value.bool false, ctx)
                  else
                    (match evalExpr fuel host secret right ctx with
                     | Except.error e => Except.error (addLocationIfNeeded e location)
                     | Except.ok (rightValue, ctx) =>
                        Except.ok (Value.bool (isTruthy rightValue), ctx))
              | Operator.or =>
                  if isTruthy leftValue then Except.ok (Value.bool true, ctx)
                  else
                    (match evalExpr fuel host secret right ctx with
                     | Except.error e => Except.error (addLocationIfNeeded e location)
                     | Except.ok (rightValue, ctx) =>
                        Except.ok (Value.bool (isTruthy rightValue), ctx))
              | op =>
                  (match evalExpr fuel host secret right ctx with
                   | Except.error e => Except.error (addLocationIfNeeded e location)
                   | Except.ok (rightValue, ctx) =>
                      match evalBinaryOp op leftValue rightValue location with
                      | Except.ok v => Except.ok (v, ctx)
                      | Except.error e => Except.error e))
      | Expression.unaryExpression operator operand _ =>
          (match evalExpr fuel host secret operand ctx with
           | Except.error e => Except.error (addLocationIfNeeded e location)
           | Except.ok (operandValue, ctx) =>
              match operator with
              | UnaryOperator.not =>
                  -- handler.rs inlines a *different* truthiness here: arrays
                  -- and objects are unconditionally truthy at this one site
                  let istruthy : Bool := match operandValue with
                    | Value.bool b => b
                    | Value.num n => !(Frac.isZero n.asF64)
                    | Value.str s => !(s == "")
                    | Value.arr _ => true
                    | Value.obj _ => true
                    | Value.null => false
                  Except.ok (Value.bool (!istruthy), ctx))
      | Expression.memberExpression object property propertyExpr computed _ =>
          (match evalExpr fuel host secret object ctx with
           | Except.error e => Except.error (addLocationIfNeeded e location)
           | Except.ok (objValue, ctx) =>
              if !computed then
                match property with
                | some prop =>
                    if prop = forbiddenKey then
                      Except.error (RuntimeError.withLocation forbiddenAccessMessage location)
                    else
                      (match objValue with
                       | Value.obj map =>
                          Except.ok ((objGet map prop).getD Value.null, ctx)
                       | Value.arr arr =>
                          (match parseUsize prop with
                           | some index => Except.ok ((arr.get? index).getD Value.null, ctx)
                           | none => Except.error (RuntimeError.withLocation
                              "Array index must be a number" location))
                       | _ => Except.error (RuntimeError.withLocation
                          "Cannot access property of non-object/non-array" location))
                | none => Except.error (RuntimeError.withLocation
                    "Missing property name" location)
              else
                match propertyExpr with
                | some propExpr =>
                    (match evalExpr fuel host secret propExpr ctx with
                     | Except.error e => Except.error (addLocationIfNeeded e location)
                     | Except.ok (propValue, ctx) =>
                        match propValue with
                        | Value.str s =>
                            if s = forbiddenKey then
                              Except.error (RuntimeError.withLocation forbiddenAccessMessage location)
                            else
                              (match objValue with
                               | Value.obj map =>
                                  Except.ok ((objGet map s).getD Value.null, ctx)
                               | Value.arr arr =>
                                  (match parseUsize s with
                                   | some index =>
                                      Except.ok ((arr.get? index).getD Value.null, ctx)
                                   | none => Except.error (RuntimeError.withLocation
                                      ("Invalid array index: " ++ s) location))
                               | _ => Except.error (RuntimeError.withLocation
                                  "Cannot access property of non-object/non-array" location))
                        | Value.num n =>
                            let keyStr := numberToString n
                            if keyStr = forbiddenKey then
                              Except.error (RuntimeError.withLocation forbiddenAccessMessage location)
                            else
                              (match objValue with
                               | Value.arr arr =>
                                  (match n with
                                   | JNumber.ofU u =>
                                      Except.ok ((arr.get? u).getD Value.null, ctx)
                                   | JNumber.ofI i =>
                                      if i < 0 then
                                        Except.error (RuntimeError.withLocation
                                          "Array index cannot be negative" location)
                                      else
                                        Except.ok ((arr.get? i.toNat).getD Value.null, ctx)
                                   | JNumber.ofF q =>
                                      if q.isNeg then
                                        Except.error (RuntimeError.withLocation
                                          "Array index must be a non-negative finite number" location)
                                      else
                                        Except.ok ((arr.get? (q.n / (q.d : Int)).toNat).getD Value.null, ctx))
                               | Value.obj map =>
                                  Except.ok ((objGet map keyStr).getD Value.null, ctx)
                               | _ => Except.error (RuntimeError.withLocation
                                  "Cannot access property of non-object/non-array" location))
                        | _ => Except.error (RuntimeError.withLocation
                            "Computed property must evaluate to a string or number" location))
                | none => Except.error (RuntimeError.withLocation
                    "Either property or property_expr must be provided" location))
      | Expression.arrayExpression elements _ =>
          (match evalArgsList fuel host secret elements location ctx with
           | Except.ok (values, ctx) => Except.ok (Value.arr values, ctx)
           | Except.error e => Except.error e)
      | Expression.objectExpression properties _ =>
          (match evalObjectProps fuel host secret properties location [] ctx with
           | Except.ok (entries, ctx) => Except.ok (Value.obj entries, ctx)
           | Except.error e => Except.error e)
      | Expression.memberCallExpression object property propertyExpr computed arguments _ =>
          (match evalExpr fuel host secret object ctx with
           | Except.error e => Except.error (addLocationIfNeeded e location)
           | Except.ok (obj, ctx) => do
              let (methodName, ctx) ←
                if !computed then
                  match property with
                  | some prop => Except.ok (prop, ctx)
                  | none => Except.error (RuntimeError.withLocation
                      "Missing property name for method call" location)
                else
                  match propertyExpr with
                  | some propExpr =>
                      (match evalExpr fuel host secret propExpr ctx with
                       | Except.error e => Except.error (addLocationIfNeeded e location)
                       | Except.ok (propValue, ctx) =>
                          match propValue with
                          | Value.str s => Except.ok (s, ctx)
                          | _ => Except.error (RuntimeError.withLocation
                              "Computed property must evaluate to a string" location))
                  | none => Except.error (RuntimeError.withLocation
                      "Either property or property_expr must be provided" location)
              let (evaluatedArgs, ctx) ← evalArgsList fuel host secret arguments location ctx
              -- the Rust call site passes no callback executor (see the
              -- section comment), so the higher-order builtins cannot succeed
              match executeBuiltinMethod obj methodName evaluatedArgs location none with
              | Except.ok (some result) => Except.ok (result, ctx)
              | Except.error e => Except.error e
              | Except.ok none =>
                  if host.functionExists methodName then
                    match host.functionCall methodName (obj :: evaluatedArgs) secret with
                    | Except.error err => Except.error (RuntimeError.withLocation
                        ("Remote method error: " ++ err) location)
                    | Except.ok result => Except.ok (result, ctx)
                  else
                    Except.error (RuntimeError.functionNotFound
                      ("Method '" ++ methodName ++ "' not found")))
      | Expression.assignmentExpression target value _ =>
          (match evalExpr fuel host secret value ctx with
           | Except.error e => Except.error (addLocationIfNeeded e location)
           | Except.ok (evaluatedValue, ctx) =>
              Except.ok (evaluatedValue, ctx.setVariable target evaluatedValue))
      | Expression.memberAssignmentExpression object property propertyExpr computed value _ =>
          (match evalExpr fuel host secret value ctx with
           | Except.error e => Except.error (addLocationIfNeeded e location)
           | Except.ok (valueToAssign, ctx) => do
              let (finalPropName, ctx) ←
                if !computed then
                  match property with
                  | some prop => Except.ok (prop, ctx)
                  | none => Except.error (RuntimeError.withLocation
                      "Missing property name for assignment" location)
                else
                  match propertyExpr with
                  | some propExpr =>
                      (match evalExpr fuel host secret propExpr ctx with
                       | Except.error e => Except.error (addLocationIfNeeded e location)
                       | Except.ok (propValue, ctx) =>
                          match propValue with
                          | Value.str s => Except.ok (s, ctx)
                          | Value.num n => Except.ok (numberToString n, ctx)
                          | _ => Except.error (RuntimeError.withLocation
                              "Computed property must evaluate to a string or number" location))
                  | none => Except.error (RuntimeError.withLocation
                      "Either property or property_expr must be provided" location)
              if finalPropName = forbiddenKey then
                Except.error (RuntimeError.withLocation forbiddenAssignMessage location)
              else
                match object with
                | Expression.identifier name _ =>
                    let objValue := (ctx.getVariable name).getD (Value.obj [])
                    let isArrayIndex := (parseUsize finalPropName).isSome
                    (match objValue with
                     | Value.arr arr =>
                        if isArrayIndex then
                          let index := (parseUsize finalPropName).getD 0
                          Except.ok (valueToAssign, ctx.setVariable name
                            (Value.arr ((padWithNulls arr index).set index valueToAssign)))
                        else
                          Except.error (RuntimeError.withLocation
                            ("Cannot set property '" ++ finalPropName ++
                              "' on value of type: array (non-numeric index)") location)
                     | Value.obj map =>
                        Except.ok (valueToAssign, ctx.setVariable name
                          (Value.obj (objInsert map finalPropName valueToAssign)))
                     | _ =>
                        Except.error (RuntimeError.withLocation
                          ("Cannot set property '" ++ finalPropName ++
                            "' on value of type: non-object") location))
                | Expression.memberExpression o p pe c l =>
                    (match extractPropertyPath fuel host secret
                        (Expression.memberExpression o p pe c l) ctx with
                     | Except.error e => Except.error (addLocationIfNeeded e location)
                     | Except.ok (propertyPath, ctx) =>
                        match propertyPath with
                        | [] => Except.error (RuntimeError.execution "Empty property path")
                        | rootName :: restPath =>
                            let isNextNumeric := match restPath with
                              | p1 :: _ => (parseUsize p1).isSome
                              | [] => false
                            let rootValue := (ctx.getVariable rootName).getD
                              (if isNextNumeric then Value.arr [] else Value.obj [])
                            (match updateNestedObject rootValue
                                (restPath ++ [finalPropName]) valueToAssign with
                             | Except.ok newRoot =>
                                Except.ok (valueToAssign, ctx.setVariable rootName newRoot)
                             | Except.error e =>
                                Except.error (addLocationIfNeeded e location)))
                | other =>
                    (match evalExpr fuel host secret other ctx with
                     | Except.error e => Except.error (addLocationIfNeeded e location)
                     | Except.ok (objValue, ctx) =>
                        let isArrayIndex := (parseUsize finalPropName).isSome
                        -- the mutation is applied to a local copy and dropped;
                        -- only the returned value observes it
                        (match objValue with
                         | Value.arr _ =>
                            if isArrayIndex then Except.ok (valueToAssign, ctx)
                            else Except.error (RuntimeError.withLocation
                              "Cannot set property on non-object/non-array or invalid index type" location)
                         | Value.obj _ => Except.ok (valueToAssign, ctx)
                         | _ => Except.error (RuntimeError.withLocation
                            "Cannot set property on non-object/non-array or invalid index type" location))))
      | Expression.keysOfExpression object _ =>
          (match evalExpr fuel host secret object ctx with
           | Except.error e => Except.error (addLocationIfNeeded e location)
           | Except.ok (objValue, ctx) =>
              match objValue with
              | Value.obj map =>
                  Except.ok (Value.arr
                    (((map.map (·.1)).filter (fun k => k ≠ forbiddenKey)).map Value.str), ctx)
              | _ => Except.error (RuntimeError.withLocation
                  "keysOf can only be applied to objects" location))
      -- handler.rs also matches `Expression::CallbackReference { name, .. }`
      -- (yielding the `{type, name}` reference object), but ast_structs.rs
      -- defines no such variant, so that arm is uninhabitable (another way
      -- the crate does not compile as given) and is absent here
      | Expression.booleanLiteral value _ => Except.ok (Value.bool value, ctx)
      | Expression.nullLiteral _ => Except.ok (Value.null, ctx)
      | Expression.inlineCallbackExpression _ _ _ _ =>
          -- the Rust match has no arm for this variant (non-exhaustive:
          -- handler.rs does not compile as written)
          Except.error (RuntimeError.execution
            "unhandled expression: InlineCallbackExpression has no match arm in evaluate_expression")

/-- Argument/element evaluation loop (left to right, errors wrapped with the
enclosing expression's location, as at every call site in handler.rs). -/
def evalArgsList (fuel : Nat) (host : Host) (secret : Option Value)
    (args : List Expression) (location : SourceLocation) (ctx : ExecutionContext) :
    Except RuntimeError (List Value × ExecutionContext) :=
  match fuel with
  | 0 => Except.error interpFuelError
  | fuel + 1 =>
      match args with
      | [] => Except.ok ([], ctx)
      | a :: rest =>
          (match evalExpr fuel host secret a ctx with
           | Except.error e => Except.error (addLocationIfNeeded e location)
           | Except.ok (v, ctx) =>
              match evalArgsList fuel host secret rest location ctx with
              | Except.ok (vs, ctx) => Except.ok (v :: vs, ctx)
              | Except.error e => Except.error e)

/-- Object-literal property evaluation loop (`Map::insert` in source
order). -/
def evalObjectProps (fuel : Nat) (host : Host) (secret : Option Value)
    (props : List Property) (location : SourceLocation)
    (acc : List (String × Value)) (ctx : ExecutionContext) :
    Except RuntimeError (List (String × Value) × ExecutionContext) :=
  match fuel with
  | 0 => Except.error interpFuelError
  | fuel + 1 =>
      match props with
      | [] => Except.ok (acc, ctx)
      | Property.mk key value _ :: rest =>
          (match evalExpr fuel host secret value ctx with
           | Except.error e => Except.error (addLocationIfNeeded e location)
           | Except.ok (v, ctx) =>
              evalObjectProps fuel host secret rest location (objInsert acc key v) ctx)

/-- Embeds the walk of `extract_property_path` (segments pushed outermost
first, reversed by the caller). -/
def extractPropertyPathLoop (fuel : Nat) (host : Host) (secret : Option Value)
    (current : Expression) (path : List String) (ctx : ExecutionContext) :
    Except RuntimeError (List String × ExecutionContext) :=
  match fuel with
  | 0 => Except.error interpFuelError
  | fuel + 1 =>
      match current with
      | Expression.identifier name _ => Except.ok (path ++ [name], ctx)
      | Expression.memberExpression object property propertyExpr computed _ =>
          if !computed then
            match property with
            | some prop =>
                extractPropertyPathLoop fuel host secret object (path ++ [prop]) ctx
            | none => Except.error (RuntimeError.execution "Missing property name")
          else
            (match propertyExpr with
             | some propExpr => do
                let (propValue, ctx) ← evalExpr fuel host secret propExpr ctx
                let propName ← match propValue with
                  | Value.str s => Except.ok s
                  | Value.num n => Except.ok (numberToString n)
                  | _ => Except.error (RuntimeError.execution
                      "Computed property must evaluate to a string or number")
                extractPropertyPathLoop fuel host secret object (path ++ [propName]) ctx
             | none => Except.error (RuntimeError.execution
                "Either property or property_expr must be provided"))
      | _ => Except.error (RuntimeError.execution
          "Unsupported expression type in property path")

/-- Embeds `extract_property_path` of handler.rs. -/
def extractPropertyPath (fuel : Nat) (host : Host) (secret : Option Value)
    (expression : Expression) (ctx : ExecutionContext) :
    Except RuntimeError (List String × ExecutionContext) :=
  match fuel with
  | 0 => Except.error interpFuelError
  | fuel + 1 => do
      let (path, ctx) ← extractPropertyPathLoop fuel host secret expression [] ctx
      Except.ok (path.reverse, ctx)

/-- Embeds `execute_statement` of handler.rs. -/
def execStatement (fuel : Nat) (host : Host) (secret : Option Value)
    (statement : Statement) (ctx : ExecutionContext) :
    Except RuntimeError (Option Value × ExecutionContext) :=
  match fuel with
  | 0 => Except.error interpFuelError
  | fuel + 1 =>
      let location := statement.location
      match statement with
      | Statement.variableDeclaration name value _ =>
          (match evalExpr fuel host secret value ctx with
           | Except.error e => Except.error (addLocationIfNeeded e location)
           | Except.ok (valueResult, ctx) =>
              Except.ok (none, ctx.setVariable name valueResult))
      | Statement.expressionStatement expression _ =>
          (match evalExpr fuel host secret expression ctx with
           | Except.error e => Except.error (addLocationIfNeeded e location)
           | Except.ok (_, ctx) => Except.ok (none, ctx))
      | Statement.ifStatement condition body elseBody _ =>
          (match evalExpr fuel host secret condition ctx with
           | Except.error e => Except.error (addLocationIfNeeded e location)
           | Except.ok (conditionValue, ctx) =>
              if isTruthy conditionValue then
                match execBlock fuel host secret body ctx with
                | Except.ok r => Except.ok r
                | Except.error e => Except.error (addLocationIfNeeded e location)
              else
                match elseBody with
                | some elseBlock =>
                    (match execBlock fuel host secret elseBlock ctx with
                     | Except.ok r => Except.ok r
                     | Except.error e => Except.error (addLocationIfNeeded e location))
                | none => Except.ok (none, ctx))
      | Statement.block blk _ => execBlock fuel host secret blk ctx
      | Statement.loopStatement loopVar iterable body _ =>
          (match evalExpr fuel host secret iterable ctx with
           | Except.error e => Except.error (addLocationIfNeeded e location)
           | Except.ok (iterableValue, ctx) =>
              match iterableValue with
              | Value.arr items => execLoopArr fuel host secret loopVar items body location ctx
              | Value.str s => execLoopStr fuel host secret loopVar s.data body ctx
              | Value.null => Except.error (RuntimeError.withLocation
                  "Cannot iterate over value of type: null" location)
              | Value.bool _ => Except.error (RuntimeError.withLocation
                  "Cannot iterate over value of type: boolean" location)
              | Value.num _ => Except.error (RuntimeError.withLocation
                  "Cannot iterate over value of type: number" location)
              | Value.obj _ => Except.error (RuntimeError.withLocation
                  "Cannot iterate over value of type: object" location))
      | Statement.callbackDeclaration name params body _ =>
          Except.ok (none, ctx.addCallback ⟨name, params, body⟩)
      | Statement.returnStatement value _ => do
          let (returnValue, ctx) ← evalExpr fuel host secret value ctx
          Except.ok (some (returnSignal returnValue), ctx)
      | Statement.endStatement _ => Except.ok (some endSignal, ctx)
      | Statement.continueStatement _ => Except.ok (some continueSignal, ctx)

/-- Embeds the array iteration of the loop statement (errors wrapped with
the loop's location, control signals handled per the source). -/
def execLoopArr (fuel : Nat) (host : Host) (secret : Option Value)
    (loopVar : String) (items : List Value) (body : Block)
    (location : SourceLocation) (ctx : ExecutionContext) :
    Except RuntimeError (Option Value × ExecutionContext) :=
  match fuel with
  | 0 => Except.error interpFuelError
  | fuel + 1 =>
      match items with
      | [] => Except.ok (none, ctx)
      | item :: rest =>
          let ctx := ctx.setVariable loopVar item
          (match execBlock fuel host secret body ctx with
           | Except.error e => Except.error (addLocationIfNeeded e location)
           | Except.ok (some value, ctx) =>
              (match getControlFlowType value with
               | some controlType =>
                  if controlType = controlContinue then
                    execLoopArr fuel host secret loopVar rest body location ctx
                  else if controlType = controlEnd then
                    Except.ok (none, ctx)
                  else
                    Except.ok (some value, ctx)
               | none => Except.ok (some value, ctx))
           | Except.ok (none, ctx) =>
              execLoopArr fuel host secret loopVar rest body location ctx)

/-- Embeds the string iteration of the loop statement (characters as
single-character strings; errors propagate unwrapped here, as in the
source). -/
def execLoopStr (fuel : Nat) (host : Host) (secret : Option Value)
    (loopVar : String) (chars : List Char) (body : Block)
    (ctx : ExecutionContext) :
    Except RuntimeError (Option Value × ExecutionContext) :=
  match fuel with
  | 0 => Except.error interpFuelError
  | fuel + 1 =>
      match chars with
      | [] => Except.ok (none, ctx)
      | ch :: rest =>
          let ctx := ctx.setVariable loopVar (Value.str (String.mk [ch]))
          (match execBlock fuel host secret body ctx with
           | Except.error e => Except.error e
           | Except.ok (some value, ctx) =>
              (match getControlFlowType value with
               | some controlType =>
                  if controlType = controlContinue then
                    execLoopStr fuel host secret loopVar rest body ctx
                  else if controlType = controlEnd then
                    Except.ok (none, ctx)
                  else
                    Except.ok (some value, ctx)
               | none => Except.ok (some value, ctx))
           | Except.ok (none, ctx) =>
              execLoopStr fuel host secret loopVar rest body ctx)

/-- Embeds `execute_block` of handler.rs: sequence the statements, stop on
the first control-flow signal. -/
def execBlock (fuel : Nat) (host : Host) (secret : Option Value)
    (block : Block) (ctx : ExecutionContext) :
    Except RuntimeError (Option Value × ExecutionContext) :=
  match fuel with
  | 0 => Except.error interpFuelError
  | fuel + 1 => execBlockStmts fuel host secret block.statements ctx

/-- Statement loop of `execute_block`. -/
def execBlockStmts (fuel : Nat) (host : Host) (secret : Option Value)
    (statements : List Statement) (ctx : ExecutionContext) :
    Except RuntimeError (Option Value × ExecutionContext) :=
  match fuel with
  | 0 => Except.error interpFuelError
  | fuel + 1 =>
      match statements with
      | [] => Except.ok (none, ctx)
      | stmt :: rest => do
          let (result, ctx) ← execStatement fuel host secret stmt ctx
          match result with
          | some value => Except.ok (some value, ctx)
          | none => execBlockStmts fuel host secret rest ctx

/-- Parameter binding loop of `execute_callback`: arguments are evaluated
against the *parent* context (whose mutations persist), values are bound in
the child; surplus arguments are never evaluated. -/
def bindCallbackArgs (fuel : Nat) (host : Host) (secret : Option Value)
    (pairs : List (String × Expression))
    (parentCtx childCtx : ExecutionContext) :
    Except RuntimeError (ExecutionContext × ExecutionContext) :=
  match fuel with
  | 0 => Except.error interpFuelError
  | fuel + 1 =>
      match pairs with
      | [] => Except.ok (parentCtx, childCtx)
      | (paramName, argExpr) :: rest => do
          let (argValue, parentCtx) ← evalExpr fuel host secret argExpr parentCtx
          bindCallbackArgs fuel host secret rest parentCtx
            (childCtx.setVariable paramName argValue)

/-- Embeds `execute_callback` of handler.rs: the child context snapshots the
parent *before* argument evaluation; the child is dropped afterwards, and a
`return` signal unwraps to its value. -/
def executeCallback (fuel : Nat) (host : Host) (secret : Option Value)
    (callback : CallbackFunction) (arguments : List Expression)
    (parentCtx : ExecutionContext) :
    Except RuntimeError (Value × ExecutionContext) :=
  match fuel with
  | 0 => Except.error interpFuelError
  | fuel + 1 =>
      let callbackContext := ExecutionContext.withParent parentCtx
      if arguments.length < callback.params.length then
        Except.error (RuntimeError.execution
          ("Callback '" ++ callback.name ++ "' requires " ++
            toString callback.params.length ++ " arguments, but " ++
            toString arguments.length ++ " were provided"))
      else do
        let (parentCtx, callbackContext) ← bindCallbackArgs fuel host secret
          (callback.params.zip arguments) parentCtx callbackContext
        let (result, _) ← execBlock fuel host secret callback.body callbackContext
        let returnValue := match result with
          | some value =>
              (match getControlFlowType value with
               | some controlType =>
                  if controlType = controlReturn then extractReturnValue value
                  else Value.null
               | none => value)
          | none => Value.null
        Except.ok (returnValue, parentCtx)

end

/-- Embeds `ExecutionResult` of messages.rs. -/
structure ExecutionResult where
  value : Value
  error : Option String

/-- Statement loop of `execute_program`: a `return` signal unwraps to the
program result, other control signals are ignored, a non-signal `Some` value
is returned as the result, and an error produces a `Null` result with the
error text. -/
def execProgramLoop (fuel : Nat) (host : Host) (secret : Option Value)
    (statements : List Statement) (ctx : ExecutionContext) : ExecutionResult :=
  match statements with
  | [] => { value := Value.null, error := none }
  | stmt :: rest =>
      match execStatement fuel host secret stmt ctx with
      | Except.ok (some value, ctx) =>
          (match getControlFlowType value with
           | some controlType =>
              if controlType = controlReturn then
                { value := extractReturnValue value, error := none }
              else
                execProgramLoop fuel host secret rest ctx
           | none => { value := value, error := none })
      | Except.ok (none, ctx) => execProgramLoop fuel host secret rest ctx
      | Except.error e => { value := Value.null, error := some e.toDisplay }

/-- Embeds `execute_program` of handler.rs: seed the fresh context with the
request's context variables, then run the statements. -/
def execProgram (fuel : Nat) (host : Host) (program : Program)
    (contextVariables : List (String × Value)) (secret : Option Value) :
    ExecutionResult :=
  let ctx := contextVariables.foldl
    (fun c kv => c.setVariable kv.1 kv.2) ExecutionContext.new
  execProgramLoop fuel host secret program.statements ctx

end Hexput

/-! ## Verification

Helper lemmas for the optimizer, then one theorem per claim (with the
counterexample and witness theorems the corrected/guarded claims need). -/

namespace Hexput

/-- Discriminator used by the optimizer lemmas: statements the flattening
pass leaves in place. -/
def stmtNotBlock : Statement → Bool
  | .block _ _ => false
  | _ => true

mutual

theorem optimizeExpr_id : ∀ e : Expression, optimizeExpr e = e
  | .stringLiteral _ _ => rfl
  | .numberLiteral _ _ => rfl
  | .identifier _ _ => rfl
  | .binaryExpression l op r loc => by
      rw [optimizeExpr, optimizeExpr_id l, optimizeExpr_id r]
  | .assignmentExpression t v loc => by
      rw [optimizeExpr, optimizeExpr_id v]
  | .memberAssignmentExpression o p pe c v loc => by
      rw [optimizeExpr, optimizeExpr_id o, optimizeExprOpt_id pe, optimizeExpr_id v]
  | .callExpression c args loc => by
      rw [optimizeExpr, optimizeExprList_id args]
  | .memberCallExpression o p pe c args loc => by
      rw [optimizeExpr, optimizeExpr_id o, optimizeExprOpt_id pe, optimizeExprList_id args]
  | .inlineCallbackExpression _ _ _ _ => rfl
  | .arrayExpression elems loc => by
      rw [optimizeExpr, optimizeExprList_id elems]
  | .objectExpression props loc => by
      rw [optimizeExpr, optimizePropertyList_id props]
  | .memberExpression o p pe c loc => by
      rw [optimizeExpr, optimizeExpr_id o, optimizeExprOpt_id pe]
  | .keysOfExpression o loc => by
      rw [optimizeExpr, optimizeExpr_id o]
  | .booleanLiteral _ _ => rfl
  | .unaryExpression op e loc => by
      rw [optimizeExpr, optimizeExpr_id e]
  | .nullLiteral _ => rfl

theorem optimizeExprOpt_id : ∀ oe : Option Expression, optimizeExprOpt oe = oe
  | none => rfl
  | some e => by rw [optimizeExprOpt, optimizeExpr_id e]

theorem optimizeExprList_id : ∀ l : List Expression, optimizeExprList l = l
  | [] => rfl
  | e :: rest => by rw [optimizeExprList, optimizeExpr_id e, optimizeExprList_id rest]

theorem optimizePropertyList_id : ∀ l : List Property, optimizePropertyList l = l
  | [] => rfl
  | .mk k v loc :: rest => by
      rw [optimizePropertyList, optimizeExpr_id v, optimizePropertyList_id rest]

end

theorem flattenStatements_id (l : List Statement)
    (h : ∀ s ∈ l, stmtNotBlock s = true) : flattenStatements l = l := by
  induction l with
  | nil => rfl
  | cons s rest ih =>
      cases s <;> simp_all [flattenStatements, stmtNotBlock]

theorem flattenStatements_cons_nonblock (s : Statement) (rest : List Statement)
    (h : stmtNotBlock s = true) :
    flattenStatements (s :: rest) = s :: flattenStatements rest := by
  cases s <;> simp_all [flattenStatements, stmtNotBlock]

theorem optimizeStatements_id (l : List Statement)
    (h : ∀ s ∈ l, optimizeStatement s = some s) : optimizeStatements l = l := by
  induction l with
  | nil => rfl
  | cons s rest ih =>
      rw [optimizeStatements, h s (by simp)]
      rw [ih (fun t ht => h t (by simp [ht]))]

theorem optimizeBlock_fix (b : Block)
    (h : ∀ t ∈ b.statements, optimizeStatement t = some t ∧ stmtNotBlock t = true) :
    optimizeBlock b = b := by
  cases b with
  | mk stmts loc =>
      simp only [optimizeBlock, Block.statements] at h ⊢
      rw [optimizeStatements_id stmts (fun s hs => (h s hs).1),
          flattenStatements_id stmts (fun s hs => (h s hs).2)]

theorem optimizeStatement_block_inv (s : Statement) (inner : Block) (loc2 : SourceLocation)
    (h : optimizeStatement s = some (Statement.block inner loc2)) :
    ∃ blk0, s = Statement.block blk0 loc2 ∧ inner = optimizeBlock blk0 := by
  cases s with
  | block blk0 l0 =>
      rw [optimizeStatement] at h
      split at h
      · exact absurd h (by simp)
      · split at h
        next stmt harm =>
          split at h
          · refine ⟨blk0, ?_, ?_⟩ <;> simp_all
          · simp_all [stmtNotBlock]
        next =>
          refine ⟨blk0, ?_, ?_⟩ <;> simp_all
  | variableDeclaration n v l => simp [optimizeStatement] at h
  | expressionStatement e l => simp [optimizeStatement] at h
  | ifStatement c b eb l =>
      simp only [optimizeStatement.eq_def] at h
      split at h <;> simp_all
  | callbackDeclaration n p b l => simp [optimizeStatement] at h
  | returnStatement v l => simp [optimizeStatement] at h
  | loopStatement v it b l =>
      simp only [optimizeStatement.eq_def] at h
      split at h <;> simp_all
  | endStatement l => simp [optimizeStatement] at h
  | continueStatement l => simp [optimizeStatement] at h

mutual

theorem optimizeStatement_stable (s s' : Statement)
    (h : optimizeStatement s = some s') : optimizeStatement s' = some s' := by
  cases s with
  | variableDeclaration n v l =>
      simp only [optimizeStatement, optimizeExpr_id, Option.some.injEq] at h
      subst h
      simp [optimizeStatement, optimizeExpr_id]
  | expressionStatement e l =>
      simp only [optimizeStatement, optimizeExpr_id, Option.some.injEq] at h
      subst h
      simp [optimizeStatement, optimizeExpr_id]
  | returnStatement v l =>
      simp only [optimizeStatement, optimizeExpr_id, Option.some.injEq] at h
      subst h
      simp [optimizeStatement, optimizeExpr_id]
  | endStatement l =>
      simp only [optimizeStatement, Option.some.injEq] at h
      subst h
      simp [optimizeStatement]
  | continueStatement l =>
      simp only [optimizeStatement, Option.some.injEq] at h
      subst h
      simp [optimizeStatement]
  | callbackDeclaration n p body l =>
      simp only [optimizeStatement, Option.some.injEq] at h
      subst h
      rw [optimizeStatement, optimizeBlock_fix _ (optimizeBlock_elems body)]
  | ifStatement c body eb l =>
      simp only [optimizeStatement.eq_def] at h
      split at h
      · exact absurd h (by simp)
      next hguard =>
        simp only [Option.some.injEq] at h
        subst h
        have hfb : optimizeBlock (optimizeBlock body) = optimizeBlock body :=
          optimizeBlock_fix _ (optimizeBlock_elems body)
        cases eb with
        | none =>
            simp only [optimizeStatement.eq_def, optimizeExpr_id, hfb] at hguard ⊢
            simp_all
        | some eb0 =>
            have hfe : optimizeBlock (optimizeBlock eb0) = optimizeBlock eb0 :=
              optimizeBlock_fix _ (optimizeBlock_elems eb0)
            simp only [optimizeStatement.eq_def, optimizeExpr_id, hfb, hfe] at hguard ⊢
            simp_all
  | loopStatement v it body l =>
      simp only [optimizeStatement.eq_def] at h
      split at h
      · exact absurd h (by simp)
      next hguard =>
        simp only [Option.some.injEq] at h
        subst h
        have hfb : optimizeBlock (optimizeBlock body) = optimizeBlock body :=
          optimizeBlock_fix _ (optimizeBlock_elems body)
        simp only [optimizeStatement.eq_def, optimizeExpr_id, hfb] at hguard ⊢
        simp_all
  | block blk l =>
      have hel := optimizeBlock_elems blk
      have hfix : optimizeBlock (optimizeBlock blk) = optimizeBlock blk :=
        optimizeBlock_fix _ hel
      rw [optimizeStatement] at h
      split at h
      · exact absurd h (by simp)
      next hne =>
        rcases hshape : (optimizeBlock blk).statements with - | ⟨t1, rest1⟩
        · rw [hshape] at hne
          simp at hne
        · rcases rest1 with - | ⟨t2, rest2⟩
          · -- singleton: the element is never a Block, so it is unwrapped
            have ht1 := hel t1 (by rw [hshape]; simp)
            rw [hshape] at h
            cases t1 with
            | block b2 l2 => simp [stmtNotBlock] at ht1
            | _ =>
                injection h with h
                subst h
                exact ht1.1
          · rw [hshape] at h
            injection h with h
            subst h
            rw [optimizeStatement]
            simp only [hfix, hshape]
            simp

theorem optimizeBlock_elems (b : Block) :
    ∀ t ∈ (optimizeBlock b).statements,
      optimizeStatement t = some t ∧ stmtNotBlock t = true := by
  cases b with
  | mk stmts loc =>
      simp only [optimizeBlock, Block.statements]
      exact optimizeList_elems stmts

theorem optimizeList_elems (l : List Statement) :
    ∀ t ∈ flattenStatements (optimizeStatements l),
      optimizeStatement t = some t ∧ stmtNotBlock t = true := by
  match l with
  | [] => intro t ht; simp [optimizeStatements, flattenStatements] at ht
  | s :: rest =>
      rw [optimizeStatements]
      rcases hopt : optimizeStatement s with - | s'
      · exact optimizeList_elems rest
      · rcases hb : stmtNotBlock s' with - | -
        · -- s' is a Block: it can only have come from a Block statement
          cases s' with
          | block inner loc2 =>
              obtain ⟨blk0, hs, hinner⟩ := optimizeStatement_block_inv s inner loc2 hopt
              subst hs
              subst hinner
              rw [flattenStatements]
              intro t ht
              rcases List.mem_append.mp ht with hmem | hmem
              · exact optimizeBlock_elems blk0 t hmem
              · exact optimizeList_elems rest t hmem
          | _ => simp [stmtNotBlock] at hb
        · rw [flattenStatements_cons_nonblock s' _ hb]
          intro t ht
          rcases List.mem_cons.mp ht with rfl | hmem
          · exact ⟨optimizeStatement_stable s t hopt, hb⟩
          · exact optimizeList_elems rest t hmem

end

theorem optimizeStatements_out_stable (l : List Statement) :
    ∀ t ∈ optimizeStatements l, optimizeStatement t = some t := by
  induction l with
  | nil => intro t ht; simp [optimizeStatements] at ht
  | cons s rest ih =>
      rw [optimizeStatements]
      rcases hopt : optimizeStatement s with - | s'
      · exact ih
      · intro t ht
        rcases List.mem_cons.mp ht with rfl | hmem
        · exact optimizeStatement_stable s t hopt
        · exact ih t hmem

/-- A non-finite double falls back to the number 0 when converted with
`Number::from_f64(x).unwrap_or(Number::from(0))`. -/
theorem fromF64OrZero_nonfinite (x : F64) (h : x.isFinite = false) :
    JNumber.fromF64OrZero x = JNumber.ofU 0 := by
  cases x <;> simp_all [F64.isFinite, JNumber.fromF64OrZero, JNumber.fromF64]

end Hexput

namespace Hexput

/-- Claim C1: `execute_builtin_method` first runs the forbidden-key guard:
when the receiver transitively contains the key `secret_data` every method
call (any name, any arity, with or without an executor) fails with the fixed
guard error at the call's location; when it does not, the guard never fires
and the call is exactly the per-type dispatch. -/
theorem executeBuiltinMethod_forbidden_guard (v : Value) (m : String)
    (args : List Value) (loc : SourceLocation) (exec : Option Unit) :
    (containsForbiddenValue v = true →
       executeBuiltinMethod v m args loc exec =
         Except.error (RuntimeError.withLocation forbiddenGuardMessage loc))
  ∧ (containsForbiddenValue v = false →
       executeBuiltinMethod v m args loc exec =
         builtinDispatch v m args loc exec) := by
  constructor <;> intro h <;> simp [executeBuiltinMethod, h]

/-- Claim C1, witness: the guard fires on an object holding the key and
stands aside on one that does not. -/
theorem executeBuiltinMethod_forbidden_guard_witness :
    executeBuiltinMethod (Value.obj [("secret_data", Value.null)]) "keys" []
        ⟨1, 1, 1, 2⟩ none
      = Except.error (RuntimeError.withLocation forbiddenGuardMessage ⟨1, 1, 1, 2⟩)
  ∧ executeBuiltinMethod (Value.obj [("a", Value.null)]) "keys" []
        ⟨1, 1, 1, 2⟩ none
      = builtinDispatch (Value.obj [("a", Value.null)]) "keys" [] ⟨1, 1, 1, 2⟩ none :=
  ⟨(executeBuiltinMethod_forbidden_guard _ _ _ _ _).1 rfl,
   (executeBuiltinMethod_forbidden_guard _ _ _ _ _).2 rfl⟩

/-- Claim C2, counterexample: on an object that actually holds
`secret_data`, `has("secret_data")` does not return `false` — the
forbidden-key guard preempts dispatch and the call errors. -/
theorem has_forbidden_key_guard_counterexample :
    executeBuiltinMethod
        (Value.obj [("a", Value.num (JNumber.ofU 1)),
                    ("secret_data", Value.num (JNumber.ofU 2))])
        "has" [Value.str "secret_data"] ⟨1, 1, 1, 2⟩ none
      = Except.error (RuntimeError.withLocation forbiddenGuardMessage ⟨1, 1, 1, 2⟩) := rfl

/-- Claim C2 (amended): the enumeration methods do filter the forbidden key
(`keys` never lists it, `entries` never pairs it, `values` drops its value,
`has` answers `false` for it), and `keysof {a:1, secret_data:2}` is
`["a"]` — but on a receiver that contains the key, method dispatch is
preempted by the guard of C1, so the filtered answers are only reachable
through `keysof`, which bypasses the guard. -/
theorem enumeration_hides_forbidden_key (map : List (String × Value))
    (loc : SourceLocation) :
    (∀ ks, executeObjectMethod map "keys" [] loc
        = Except.ok (some (Value.arr ks)) → Value.str forbiddenKey ∉ ks)
  ∧ (∀ es, executeObjectMethod map "entries" [] loc
        = Except.ok (some (Value.arr es)) →
          ∀ v, Value.arr [Value.str forbiddenKey, v] ∉ es)
  ∧ executeObjectMethod map "values" [] loc
      = Except.ok (some (Value.arr
          ((map.filter (fun kv => kv.1 ≠ forbiddenKey)).map (fun kv => kv.2))))
  ∧ executeObjectMethod map "has" [Value.str forbiddenKey] loc
      = Except.ok (some (Value.bool false))
  ∧ (containsForbiddenValue (Value.obj map) = true →
        ∀ m args exec, executeBuiltinMethod (Value.obj map) m args loc exec
          = Except.error (RuntimeError.withLocation forbiddenGuardMessage loc))
  ∧ (∀ (f : Nat) (ctx : ExecutionContext),
        evalExpr (f + 10) noHost none
          (Expression.keysOfExpression (Expression.objectExpression
            [⟨"a", Expression.numberLiteral (F64.finite ⟨1, 1⟩) loc, loc⟩,
             ⟨"secret_data", Expression.numberLiteral (F64.finite ⟨2, 1⟩) loc, loc⟩]
            loc) loc) ctx
          = Except.ok (Value.arr [Value.str "a"], ctx)) := by
  refine ⟨?_, ?_, rfl, rfl, ?_, fun f ctx => rfl⟩
  · intro ks h
    have hk : executeObjectMethod map "keys" [] loc
        = Except.ok (some (Value.arr
            (((map.map (fun kv => kv.1)).filter (fun k => k ≠ forbiddenKey)).map
              Value.str))) := rfl
    rw [hk] at h
    simp only [Except.ok.injEq, Option.some.injEq, Value.arr.injEq] at h
    subst h
    simp [List.mem_map, List.mem_filter]
  · intro es h
    have he : executeObjectMethod map "entries" [] loc
        = Except.ok (some (Value.arr
            ((map.filter (fun kv => kv.1 ≠ forbiddenKey)).map
              (fun kv => Value.arr [Value.str kv.1, kv.2])))) := rfl
    rw [he] at h
    simp only [Except.ok.injEq, Option.some.injEq, Value.arr.injEq] at h
    subst h
    intro v
    simp [List.mem_map, List.mem_filter]
  · intro h m args exec
    simp [executeBuiltinMethod, h]

/-- Claim C2, witness: the filtered enumeration and the preempting guard at
a concrete two-key object. -/
theorem enumeration_hides_forbidden_key_witness :
    Value.str forbiddenKey ∉ [Value.str "a"]
  ∧ executeBuiltinMethod
        (Value.obj [("a", Value.num (JNumber.ofU 1)),
                    ("secret_data", Value.num (JNumber.ofU 2))])
        "keys" [] ⟨1, 1, 1, 2⟩ none
      = Except.error (RuntimeError.withLocation forbiddenGuardMessage ⟨1, 1, 1, 2⟩) :=
  ⟨(enumeration_hides_forbidden_key
      [("a", Value.num (JNumber.ofU 1)), ("secret_data", Value.num (JNumber.ofU 2))]
      ⟨1, 1, 1, 2⟩).1 [Value.str "a"] rfl,
   (enumeration_hides_forbidden_key
      [("a", Value.num (JNumber.ofU 1)), ("secret_data", Value.num (JNumber.ofU 2))]
      ⟨1, 1, 1, 2⟩).2.2.2.2.1 rfl "keys" [] none⟩

end Hexput

namespace Hexput

/-- Claim C3 (code bug): the documented local execution of higher-order
array methods does not exist.  The scenario script does not even parse (the
member-call argument grammar has no `cb` case), and at the builtin layer the
interpreter's call site passes no callback executor, so `map` with a
callback reference errors out; with an executor present it would only
return the deferred descriptor, which no interpreter code consumes. -/
theorem map_callback_not_locally_executed :
    processCode "[1,2,3].map(cb f(x)\x7bres x+1;\x7d)" FeatureFlags.allEnabled
      = Except.error (ParseError.unexpectedToken "Unexpected token: Cb" ⟨1, 13, 1, 15⟩)
  ∧ executeArrayMethod [Value.num (JNumber.ofU 1)] "map"
        [Value.obj [("type", Value.str "callback_reference"), ("name", Value.str "f")]]
        ⟨1, 1, 1, 2⟩ none
      = Except.error (RuntimeError.withLocation
          "Callback executor not available for Array.map" ⟨1, 1, 1, 2⟩)
  ∧ executeArrayMethod [Value.num (JNumber.ofU 1)] "map"
        [Value.obj [("type", Value.str "callback_reference"), ("name", Value.str "f")]]
        ⟨1, 1, 1, 2⟩ (some ())
      = Except.ok (some (asyncOpDescriptor "map" "f" [Value.num (JNumber.ofU 1)] [])) :=
  ⟨rfl, rfl, rfl⟩

/-- Claim C4 (code bug): `update_nested_object` chooses array-vs-object for
a missing node from the *current* segment, not the next one, so
`o.a.b[0] = 7` builds `{"a":{"b":{"0":7}}}` — the index lands as a string
key on an object instead of position 0 of an array. -/
theorem nested_assignment_autovivification :
    (processCode "vl o = \x7b\x7d; o.a.b[0] = 7; res o;" FeatureFlags.allEnabled).map
        (fun p => (execProgram 1000 noHost p [] none).value)
      = Except.ok (Value.obj [("a", Value.obj [("b",
          Value.obj [("0", Value.num (JNumber.ofF ⟨7, 1⟩))])])]) := rfl

/-- Claim C5, counterexample: the value of the final expression statement is
*not* delivered — `vl x = 2 + 3 * 4; x;` runs to completion with program
result `Null`. -/
theorem expression_statement_value_dropped_counterexample :
    (processCode "vl x = 2 + 3 * 4; x;" FeatureFlags.allEnabled).map
        (fun p => execProgram 100 noHost p [] none)
      = Except.ok ⟨Value.null, none⟩ := rfl

/-- Claim C5 (amended): multiplication does bind tighter than addition
(`res x` delivers 14), but an expression statement's value is discarded
(`execute_statement` returns `None` for it whenever the expression
evaluates), so the bare `x;` variant yields `Null`. -/
theorem multiplication_precedence_and_result_delivery :
    (processCode "vl x = 2 + 3 * 4; res x;" FeatureFlags.allEnabled).map
        (fun p => (execProgram 100 noHost p [] none).value)
      = Except.ok (Value.num (JNumber.ofF ⟨14, 1⟩))
  ∧ (processCode "vl x = 2 + 3 * 4; x;" FeatureFlags.allEnabled).map
        (fun p => (execProgram 100 noHost p [] none).value)
      = Except.ok Value.null
  ∧ (∀ (f : Nat) (host : Host) (secret : Option Value) (e : Expression)
        (loc : SourceLocation) (ctx : ExecutionContext) (v : Value)
        (ctx2 : ExecutionContext),
        evalExpr f host secret e ctx = Except.ok (v, ctx2) →
        execStatement (f + 1) host secret (Statement.expressionStatement e loc) ctx
          = Except.ok (none, ctx2)) := by
  refine ⟨rfl, rfl, ?_⟩
  intro f host secret e loc ctx v ctx2 h
  show (match evalExpr f host secret e ctx with
        | Except.error er => Except.error (addLocationIfNeeded er
            (Statement.expressionStatement e loc).location)
        | Except.ok (_, c) => Except.ok (none, c))
      = Except.ok (none, ctx2)
  rw [h]

/-- Claim C6 (code bug): the lexer has no minus token at all — in
`vl x = a - b;` the `-` character is silently skipped, the two identifiers
become adjacent, and parsing then fails expecting the semicolon; no
BinaryExpression with operator Minus can ever be produced. -/
theorem minus_operator_not_lexed :
    (tokenize "vl x = a - b;").map TokenWithSpan.token
      = [Token.vl, Token.identifier "x", Token.equal, Token.identifier "a",
         Token.identifier "b", Token.semicolon]
  ∧ processCode "vl x = a - b;" FeatureFlags.allEnabled
      = Except.error (ParseError.unexpectedToken
          "Expected Semicolon, got Identifier(\"b\")" ⟨1, 12, 1, 13⟩) :=
  ⟨rfl, rfl⟩

/-- Claim C7 (code bug): the unary-`!` site treats arrays and objects as
unconditionally truthy, so `![]` and `!{}` evaluate to `false` — diverging
from the documented truthiness (and from `isTruthy`, the match every other
site uses, under which empty collections are falsy). -/
theorem unary_not_on_empty_collections :
    (∀ (f : Nat) (host : Host) (secret : Option Value)
        (ctx : ExecutionContext) (loc : SourceLocation),
        evalExpr (f + 10) host secret
          (Expression.unaryExpression UnaryOperator.not
            (Expression.arrayExpression [] loc) loc) ctx
          = Except.ok (Value.bool false, ctx)
      ∧ evalExpr (f + 10) host secret
          (Expression.unaryExpression UnaryOperator.not
            (Expression.objectExpression [] loc) loc) ctx
          = Except.ok (Value.bool false, ctx))
  ∧ isTruthy (Value.arr []) = false
  ∧ isTruthy (Value.obj []) = false
  ∧ (processCode "res ![];" FeatureFlags.allEnabled).map
        (fun p => (execProgram 100 noHost p [] none).value)
      = Except.ok (Value.bool false) :=
  ⟨fun _ _ _ _ _ => ⟨rfl, rfl⟩, rfl, rfl, rfl⟩

end Hexput

namespace Hexput

/-- Claim C8: the optimizer is idempotent — a second `optimize_ast` pass
over any program changes nothing. -/
theorem optimize_idempotent (p : Program) :
    optimizeAst (optimizeAst p) = optimizeAst p := by
  simp only [optimizeAst]
  rw [optimizeStatements_id _ (optimizeStatements_out_stable p.statements)]

/-- Claim C9: blocks, if-branches and loop bodies run against the enclosing
`ExecutionContext` itself — a variable written inside them (here by `vl`,
and by the loop-variable binding) is still bound in that same frame
afterwards — while callback execution builds a child context whose writes
are dropped, the parent coming back unchanged. -/
theorem blocks_share_enclosing_frame (f : Nat) (host : Host)
    (secret : Option Value) (ctx : ExecutionContext) (loc : SourceLocation)
    (x : String) (v : F64) :
    execStatement (f + 10) host secret
        (Statement.block
          ⟨[Statement.variableDeclaration x (Expression.numberLiteral v loc) loc], loc⟩
          loc) ctx
      = Except.ok (none, ctx.setVariable x (Value.num (JNumber.fromF64OrZero v)))
  ∧ execStatement (f + 10) host secret
        (Statement.ifStatement (Expression.booleanLiteral true loc)
          ⟨[Statement.variableDeclaration x (Expression.numberLiteral v loc) loc], loc⟩
          none loc) ctx
      = Except.ok (none, ctx.setVariable x (Value.num (JNumber.fromF64OrZero v)))
  ∧ execStatement (f + 10) host secret
        (Statement.loopStatement x
          (Expression.arrayExpression [Expression.numberLiteral v loc] loc)
          ⟨[], loc⟩ loc) ctx
      = Except.ok (none, ctx.setVariable x (Value.num (JNumber.fromF64OrZero v)))
  ∧ executeCallback (f + 10) host secret
        ⟨"k", [], ⟨[Statement.variableDeclaration x (Expression.numberLiteral v loc) loc], loc⟩⟩
        [] ctx
      = Except.ok (Value.null, ctx) :=
  ⟨rfl, rfl, rfl, rfl⟩

/-- Claim C10: a binary `+`, `-`, `*` or `/` on two numbers whose exact
result is a non-finite double is delivered as the number 0 (the
`from_f64(..).unwrap_or(0)` fallback), never as an error or an infinity;
a `NumberLiteral` holding a non-finite double evaluates to 0 the same way. -/
theorem nonfinite_arithmetic_yields_zero (l r : JNumber) (loc : SourceLocation) :
    ((F64.addF l.asF64 r.asF64).isFinite = false →
        evalBinaryOp Operator.plus (Value.num l) (Value.num r) loc
          = Except.ok (Value.num (JNumber.ofU 0)))
  ∧ ((F64.subF l.asF64 r.asF64).isFinite = false →
        evalBinaryOp Operator.minus (Value.num l) (Value.num r) loc
          = Except.ok (Value.num (JNumber.ofU 0)))
  ∧ ((F64.mulF l.asF64 r.asF64).isFinite = false →
        evalBinaryOp Operator.multiply (Value.num l) (Value.num r) loc
          = Except.ok (Value.num (JNumber.ofU 0)))
  ∧ (Frac.isZero r.asF64 = false → (F64.divF l.asF64 r.asF64).isFinite = false →
        evalBinaryOp Operator.divide (Value.num l) (Value.num r) loc
          = Except.ok (Value.num (JNumber.ofU 0)))
  ∧ (∀ (x : F64), x.isFinite = false →
        ∀ (f : Nat) (host : Host) (secret : Option Value) (ctx : ExecutionContext),
          evalExpr (f + 1) host secret (Expression.numberLiteral x loc) ctx
            = Except.ok (Value.num (JNumber.ofU 0), ctx)) := by
  refine ⟨?_, ?_, ?_, ?_, ?_⟩
  · intro h
    simp [evalBinaryOp, fromF64OrZero_nonfinite _ h]
  · intro h
    simp [evalBinaryOp, fromF64OrZero_nonfinite _ h]
  · intro h
    simp [evalBinaryOp, fromF64OrZero_nonfinite _ h]
  · intro hz h
    simp [evalBinaryOp, hz, fromF64OrZero_nonfinite _ h]
  · intro x h f host secret ctx
    have heval : evalExpr (f + 1) host secret (Expression.numberLiteral x loc) ctx
        = Except.ok (Value.num (JNumber.fromF64OrZero x), ctx) := rfl
    rw [heval, fromF64OrZero_nonfinite x h]

/-- Claim C10, witness: the largest finite double added to itself overflows
and comes back as the number 0. -/
theorem nonfinite_arithmetic_yields_zero_witness :
    evalBinaryOp Operator.plus (Value.num (JNumber.ofF f64Max))
        (Value.num (JNumber.ofF f64Max)) ⟨1, 1, 1, 2⟩
      = Except.ok (Value.num (JNumber.ofU 0)) :=
  (nonfinite_arithmetic_yields_zero (JNumber.ofF f64Max) (JNumber.ofF f64Max)
    ⟨1, 1, 1, 2⟩).1 rfl

end Hexput
